import Mathlib

/-!
Verification development for the NBA-Predict data pipeline.

The definitions below are a shallow embedding of the two core source files:
`getdata.py` (fetch-with-retry and the three-level crawl orchestrator over a
filesystem artifact store) and `parsedata.py` (the box-score extractor).
Pure Python/pandas operations are translated into executable Lean functions;
raised exceptions become `Except`/error fields; the filesystem store becomes an
association list keyed by (directory, filename); NaN-able numeric cells become
`Option Int`.
-/

/-- Generic first-match association-list lookup (models `os.path.exists` /
file reads on the store, and pandas label lookup on rows). -/
def lookupKey {α β : Type} [DecidableEq α] (k : α) : List (α × β) → Option β
  | [] => none
  | (a, b) :: rest => if a = k then some b else lookupKey k rest

/-- Test that `pat` begins `text` (kernel-evaluable helper for the substring test). -/
def beginsChars : List Char → List Char → Bool
  | [], _ => true
  | _ :: _, [] => false
  | a :: as, b :: bs => a = b && beginsChars as bs

def isInfixChars : List Char → List Char → Bool
  | pat, [] => beginsChars pat []
  | pat, c :: cs => beginsChars pat (c :: cs) || isInfixChars pat cs

/-- Python `pat in s` substring test. -/
def strContains (s pat : String) : Bool := isInfixChars pat.data s.data

def lastSegChars (acc : List Char) : List Char → List Char
  | [] => acc
  | c :: cs => if c = '/' then lastSegChars [] cs else lastSegChars (acc ++ [c]) cs

/-- Models `url.split("/")[-1]`: the characters after the last slash. -/
def lastSeg (u : String) : String := ⟨lastSegChars [] u.data⟩

/-- The characters before the first occurrence of `sep` (`s.split(sep)[0]`). -/
def beforeChar (sep : Char) : List Char → List Char
  | [] => []
  | c :: cs => if c = sep then [] else c :: beforeChar sep cs

/-- Python truthiness of an optional string: `None` and `""` are falsy. -/
def pyFalsy : Option String → Bool
  | none => true
  | some s => s.data.isEmpty

/-- Models `str.lower()`. -/
def strLower (s : String) : String := ⟨s.data.map Char.toLower⟩

/-! ## Extractor (`parsedata.py`) -/

/-- A numeric cell after `pd.to_numeric(..., errors="coerce")`: `none` is NaN. -/
abbrev Val := Option Int

/-- One stat table (`box-TEAM-game-basic` / `-advanced`) after numeric coercion:
column stat names and the data rows; the trailing aggregate (team totals) row is
the last element of `rows`. -/
structure TeamTable where
  stats : List String
  rows : List (List Val)
deriving Repr, DecidableEq

/-- pandas column `max()` with NaN skipping: `none` only when no numeric value. -/
def nanMax (l : List Val) : Val :=
  l.foldl (fun acc v =>
    match acc, v with
    | none, w => w
    | some a, none => some a
    | some a, some b => some (max a b)) none

/-- Values of column `j` over the per-player rows, i.e. `df.iloc[:-1]`. -/
def colVals (t : TeamTable) (j : Nat) : List Val :=
  t.rows.dropLast.map (fun r => r.getD j none)

/-- Models `df.iloc[-1, :]` as a Series: stat names paired with the aggregate row. -/
def tableTotals (t : TeamTable) : List (String × Val) :=
  t.stats.zip (t.rows.getLastD [])

/-- Models `df.iloc[:-1, :].max()` as a Series. -/
def tableMaxes (t : TeamTable) : List (String × Val) :=
  t.stats.enum.map (fun p => (p.2, nanMax (colVals t p.1)))

/-- Models `series.index.str.lower()`. -/
def lowerFst (l : List (String × Val)) : List (String × Val) :=
  l.map (fun p => (strLower p.1, p.2))

/-- Models `series.index.str.lower() + "_max"`. -/
def maxFst (l : List (String × Val)) : List (String × Val) :=
  l.map (fun p => (strLower p.1 ++ "_max", p.2))

/-- Models `summary = pd.concat([totals, maxes])` for one team
(totals of basic then advanced, then maxes of basic then advanced). -/
def teamSummary (basic advanced : TeamTable) : List (String × Val) :=
  lowerFst (tableTotals basic ++ tableTotals advanced) ++
    maxFst (tableMaxes basic ++ tableMaxes advanced)

/-- Models `index.drop_duplicates(keep="first")`. -/
def dedupAux : List String → List String → List String
  | _, [] => []
  | seen, x :: rest =>
    if x ∈ seen then dedupAux seen rest else x :: dedupAux (x :: seen) rest

def dropDupKeepFirst (l : List String) : List String := dedupAux [] l

/-- The canonical schema pinned from a summary: deduplicated keys with the
plus-minus ("bpm") family dropped. -/
def pinSchema (summary : List (String × Val)) : List String :=
  (dropDupKeepFirst (summary.map Prod.fst)).filter (fun c => ! strContains c "bpm")

inductive PdErr
  | keyError (k : String)
  | valueErrorTruth
  | valueErrorLength
  | concatEmpty
deriving Repr, DecidableEq

/-- The runtime type of `base_columns` as it flows through the program:
`None`, a Python list (assigned inside `process_box_score`), or a pandas
Index (assigned in `main` from `game_data.columns`). -/
inductive Cols
  | noCols
  | pylist (l : List String)
  | pdindex (l : List String)
deriving Repr, DecidableEq

/-- Python `not base_columns`: `not None` is `True`, `not list` tests emptiness,
and `not` on a pandas Index raises `ValueError` (truth value ambiguous). -/
def pyNotCols : Cols → Except PdErr Bool
  | .noCols => .ok true
  | .pylist l => .ok l.isEmpty
  | .pdindex _ => .error .valueErrorTruth

def colsList : Cols → List String
  | .noCols => []
  | .pylist l => l
  | .pdindex l => l

/-- Models `summary[base_columns]`: label selection on a Series; a duplicated label
returns all its occurrences in order, a missing label raises `KeyError`. -/
def seriesSelect (s : List (String × Val)) : List String → Except PdErr (List (String × Val))
  | [] => .ok []
  | l :: ls =>
    let m := s.filter (fun p => p.1 = l)
    if m.isEmpty then .error (.keyError l)
    else
      match seriesSelect s ls with
      | .error e => .error e
      | .ok rest => .ok (m ++ rest)

/-- One parsed box-score document: the line score (team, final total) in
document order, the per-team stat tables, the `#bottom_nav_container` hrefs and
the source file name. -/
structure BoxScore where
  lineScore : List (String × Int)
  basic : String → TeamTable
  advanced : String → TeamTable
  navHrefs : List String
  fileName : String

/-- Models `os.path.basename(hrefs[1]).split("_")[0]`. -/
def extract_season (navHrefs : List String) : String :=
  ⟨beforeChar '_' (lastSeg (navHrefs.getD 1 "")).data⟩

/-- Models `os.path.basename(box_score)[:8]` (the date prefix of the file name). -/
def dateOf (fileName : String) : String := ⟨fileName.data.take 8⟩

/-- The per-team loop of `process_box_score`: build each team's summary, pin
`base_columns` when it is falsy, and project the summary onto it. -/
def processTeams (bs : BoxScore) : List String → Cols → Except PdErr (List (List (String × Val)) × Cols)
  | [], b => .ok ([], b)
  | team :: rest, b =>
    match pyNotCols b with
    | .error e => .error e
    | .ok isFalsy =>
      let summary := teamSummary (bs.basic team) (bs.advanced team)
      let b' := if isFalsy then Cols.pylist (pinSchema summary) else b
      match seriesSelect summary (colsList b') with
      | .error e => .error e
      | .ok proj =>
        match processTeams bs rest b' with
        | .error e => .error e
        | .ok (ps, b2) => .ok (proj :: ps, b2)

/-- A cell of the assembled game frame. -/
inductive Cell
  | num (v : Val)
  | str (s : String)
  | intv (i : Int)
  | boolv (b : Bool)
deriving Repr, DecidableEq

abbrev Row := List (String × Cell)

/-- Models `game_opp_df.columns += "_opp"`. -/
def oppSuffix (r : Row) : Row := r.map (fun p => (p.1 ++ "_opp", p.2))

/-- One row of `game_df`: the projected summary, then the line-score columns
`team` and `total`, then the positional `home` flag. -/
def ownRow (p : List (String × Val)) (tm : String) (tot : Int) (h : Nat) : Row :=
  p.map (fun q => (q.1, Cell.num q.2)) ++
    [("team", Cell.str tm), ("total", Cell.intv tot), ("home", Cell.intv (Int.ofNat h))]

/-- The frame `game_df` built from the projected summaries and the line score. -/
def buildGameRows (summaries : List (List (String × Val))) (ls : List (String × Int)) : List Row :=
  (summaries.zip ls).enum.map (fun q => ownRow q.2.1 q.2.2.1 q.2.2.2 q.1)

def rowGetInt (r : Row) (k : String) : Option Int :=
  match lookupKey k r with
  | some (Cell.intv i) => some i
  | _ => none

def rowGetBool (r : Row) (k : String) : Option Bool :=
  match lookupKey k r with
  | some (Cell.boolv b) => some b
  | _ => none

/-- The derived columns `season`, `date` and `won` (`won = total > total_opp`). -/
def derivedTail (bs : BoxScore) (t o : Int) : Row :=
  [("season", Cell.str (extract_season bs.navHrefs)),
   ("date", Cell.str (dateOf bs.fileName)),
   ("won", Cell.boolv (decide (t > o)))]

/-- Row reversal, `_opp` suffixing, column-wise concatenation and the derived
columns of `process_box_score`. -/
def assemble (bs : BoxScore) (gameRows : List Row) : List Row :=
  let opp := gameRows.reverse.map oppSuffix
  (gameRows.zip opp).map (fun q =>
    let r := q.1 ++ q.2
    let t := (rowGetInt r "total").getD 0
    let o := (rowGetInt r "total_opp").getD 0
    r ++ derivedTail bs t o)

/-- Models `process_box_score(box_score, base_columns)`: returns the full game rows and
`full_game_df.columns`.  `pd.concat` of no summaries raises, and
`game_df["home"] = [0, 1]` raises unless there are exactly two rows. -/
def process_box_score (bs : BoxScore) (base : Cols) : Except PdErr (List Row × List String) :=
  match processTeams bs (bs.lineScore.map Prod.fst) base with
  | .error e => .error e
  | .ok (summaries, _) =>
    if summaries.isEmpty then .error .concatEmpty
    else if bs.lineScore.length = 2 then
      let rows := assemble bs (buildGameRows summaries bs.lineScore)
      .ok (rows, (rows.headD []).map Prod.fst)
    else .error .valueErrorLength

/-- The batch loop of `parsedata.main`: after each document,
`base_columns = game_data.columns if not base_columns else base_columns`. -/
def parsedataGo : List BoxScore → Cols → Except PdErr (List Row)
  | [], _ => .ok []
  | d :: ds, b =>
    match process_box_score d b with
    | .error e => .error e
    | .ok (rows, cols) =>
      match pyNotCols b with
      | .error e => .error e
      | .ok isFalsy =>
        let b' := if isFalsy then Cols.pdindex cols else b
        match parsedataGo ds b' with
        | .error e => .error e
        | .ok rest => .ok (rows ++ rest)

/-- Models `parsedata.main` over a batch of documents (`base_columns` starts `None`). -/
def parsedataMain (docs : List BoxScore) : Except PdErr (List Row) :=
  parsedataGo docs Cols.noCols

def isOkE {ε α : Type} : Except ε α → Bool
  | .ok _ => true
  | .error _ => false

/-! Concrete sample documents used by witnesses and counterexamples. -/

def sampleBasic : TeamTable :=
  ⟨["MP", "FG"], [[some 30, some 10], [some 28, some 8], [some 240, some 40]]⟩

def sampleAdvanced : TeamTable :=
  ⟨["MP", "BPM"], [[some 30, some 5], [some 28, some 3], [some 240, some 0]]⟩

def sampleDoc : BoxScore :=
  ⟨[("BOS", 110), ("LAL", 104)], fun _ => sampleBasic, fun _ => sampleAdvanced,
   ["/teams/BOS/2018.html", "/leagues/NBA_2018.html"], "201801010BOS.html"⟩

def tieDoc : BoxScore :=
  ⟨[("BOS", 100), ("LAL", 100)], fun _ => sampleBasic, fun _ => sampleAdvanced,
   ["/teams/BOS/2018.html", "/leagues/NBA_2018.html"], "201801020BOS.html"⟩

/-! ## Fetcher (`getdata.py`, `fetch_html_content`) -/

/-- The observable outcome of one Playwright attempt at a given URL. -/
inductive AttemptResult
  | timeout
  | ok (html : String)
  | fail (e : String)
deriving Repr, DecidableEq

/-- What a call of `fetch_html_content` does: the returned `html` (which is
`None` when every attempt timed out) or an uncaught exception. -/
inductive FetchResult
  | success (html : Option String)
  | raised (e : String)
deriving Repr, DecidableEq

/-- The trace of one `fetch_html_content` call: the sleeps performed (in
order), the number of attempts made, and the outcome. -/
structure FetchTrace where
  delays : List Nat
  attempts : Nat
  result : FetchResult
deriving Repr, DecidableEq

/-- The retry loop `for attempt in range(1, retries + 1)`: sleep
`sleep * attempt`, then run the attempt; a timeout `continue`s, a success
`break`s, any other failure propagates.  `fuel` counts the remaining
iterations. -/
def fetchGo (net : Nat → AttemptResult) (sleep : Nat) : Nat → Nat → FetchTrace
  | 0, _ => ⟨[], 0, .success none⟩
  | fuel + 1, attempt =>
    match net attempt with
    | .timeout =>
      let t := fetchGo net sleep fuel (attempt + 1)
      ⟨sleep * attempt :: t.delays, t.attempts + 1, t.result⟩
    | .ok h => ⟨[sleep * attempt], 1, .success (some h)⟩
    | .fail e => ⟨[sleep * attempt], 1, .raised e⟩

/-- Models `fetch_html_content(url, selector, sleep, retries)`; `net` gives the
outcome of each numbered attempt at this URL. -/
def fetch_html_content (net : Nat → AttemptResult) (sleep retries : Nat) : FetchTrace :=
  fetchGo net sleep retries 1

/-! ## Crawl orchestrator (`getdata.py`) -/

def STANDINGS_DIR : String := "data/standings"
def SCORES_DIR : String := "data/scores"
def baseSite : String := "https://www.basketball-reference.com"

def seasonUrl (season : Nat) : String :=
  baseSite ++ "/leagues/NBA_" ++ toString season ++ "_games.html"

inductive FetchKind
  | seasonIdx
  | schedPage
  | boxScore
deriving Repr, DecidableEq

/-- The artifact store: the `data/` tree, keyed by (directory, file name). -/
abbrev Store := List ((String × String) × String)

/-- The crawl's environment: per-URL per-attempt network behaviour, and the
anchor hrefs BeautifulSoup extracts from a given markup fragment. -/
structure Env where
  net : String → Nat → AttemptResult
  links : String → List String

/-- The orchestrator's use of the fetcher (default `sleep=9, retries=12`). -/
def orchFetch (env : Env) (url : String) : FetchResult :=
  (fetch_html_content (env.net url) 9 12).result

/-- The observable result of a crawl phase: the store, the URLs fetched (in
order, with their resource kind), and the uncaught exception if one aborted
the phase.  Writes survive an abort, as on a real filesystem. -/
structure RunOut where
  store : Store
  log : List (String × FetchKind)
  err : Option String
deriving Repr, DecidableEq

/-- The shared per-resource loop of `scrape_season_data` (standings pages) and
`scrape_game_data` (box scores): skip a URL whose save path already exists,
otherwise fetch it and persist a truthy fragment. -/
def resourceLoop (env : Env) (dir : String) (kind : FetchKind) (store : Store) :
    List String → RunOut
  | [] => ⟨store, [], none⟩
  | u :: rest =>
    match lookupKey (dir, lastSeg u) store with
    | some _ => resourceLoop env dir kind store rest
    | none =>
      match orchFetch env u with
      | .raised e => ⟨store, [(u, kind)], some e⟩
      | .success h =>
        if pyFalsy h then
          let r := resourceLoop env dir kind store rest
          ⟨r.store, (u, kind) :: r.log, r.err⟩
        else
          let r := resourceLoop env dir kind (store ++ [((dir, lastSeg u), h.getD "")]) rest
          ⟨r.store, (u, kind) :: r.log, r.err⟩

/-- Models `scrape_season_data(season)`: fetch the season index (never cached), abandon
the branch on a falsy fragment, else walk the linked standings pages. -/
def scrape_season_data (env : Env) (store : Store) (season : Nat) : RunOut :=
  match orchFetch env (seasonUrl season) with
  | .raised e => ⟨store, [(seasonUrl season, .seasonIdx)], some e⟩
  | .success html =>
    if pyFalsy html then ⟨store, [(seasonUrl season, .seasonIdx)], none⟩
    else
      let pages := (env.links (html.getD "")).map (fun h => baseSite ++ h)
      let r := resourceLoop env STANDINGS_DIR .schedPage store pages
      ⟨r.store, (seasonUrl season, .seasonIdx) :: r.log, r.err⟩

/-- Models `for season in SEASONS: await scrape_season_data(season)` — no exception
handling, so an error stops the remaining seasons. -/
def seasonsLoop (env : Env) (store : Store) : List Nat → RunOut
  | [] => ⟨store, [], none⟩
  | s :: rest =>
    let r := scrape_season_data env store s
    match r.err with
    | some e => ⟨r.store, r.log, some e⟩
    | none =>
      let r2 := seasonsLoop env r.store rest
      ⟨r2.store, r.log ++ r2.log, r2.err⟩

/-- Models `scrape_game_data(standings_file)`: read the stored standings page, keep
hrefs containing "boxscore", fetch-and-persist each missing box score.  (The
file is always present: its name comes from `os.listdir`.) -/
def scrape_game_data (env : Env) (store : Store) (fileName : String) : RunOut :=
  let html := (lookupKey (STANDINGS_DIR, fileName) store).getD ""
  let urls := ((env.links html).filter (fun h => strContains h "boxscore")).map
    (fun h => baseSite ++ h)
  resourceLoop env SCORES_DIR .boxScore store urls

/-- Models `for standings_file in files_for_season: await scrape_game_data(...)`. -/
def filesLoop (env : Env) (store : Store) : List String → RunOut
  | [] => ⟨store, [], none⟩
  | f :: rest =>
    let r := scrape_game_data env store f
    match r.err with
    | some _ => r
    | none =>
      let r2 := filesLoop env r.store rest
      ⟨r2.store, r.log ++ r2.log, r2.err⟩

/-- The second phase of `getdata.main`: for each season, the standings files
whose name contains the season number. -/
def seasonsFilesLoop (env : Env) (store : Store) (files : List String) : List Nat → RunOut
  | [] => ⟨store, [], none⟩
  | s :: rest =>
    let r := filesLoop env store (files.filter (fun f => strContains f (toString s)))
    match r.err with
    | some _ => r
    | none =>
      let r2 := seasonsFilesLoop env r.store files rest
      ⟨r2.store, r.log ++ r2.log, r2.err⟩

/-- Models `os.listdir(dir)` on the modelled store. -/
def listdir (d : String) (store : Store) : List String :=
  store.filterMap (fun e => if e.1.1 = d then some e.1.2 else none)

def SEASONS : List Nat := [2016, 2017, 2018, 2019, 2020, 2021, 2022, 2023, 2024]

/-- Models `getdata.main`: scrape every season, then walk the standings files. -/
def getdataMain (env : Env) (store : Store) : RunOut :=
  let r1 := seasonsLoop env store SEASONS
  match r1.err with
  | some _ => r1
  | none =>
    let files := listdir STANDINGS_DIR r1.store
    let r2 := seasonsFilesLoop env r1.store files SEASONS
    ⟨r2.store, r1.log ++ r2.log, r2.err⟩

/-- The store directory an orchestrator fetch of this kind would persist to
(season index pages are never persisted). -/
def dirOf : FetchKind → String
  | .seasonIdx => ""
  | .schedPage => STANDINGS_DIR
  | .boxScore => SCORES_DIR

/-- Relation: `t` contains every store entry of `s` (writes never overwrite, so runs only
extend the store in this sense). -/
def SubC (s t : Store) : Prop :=
  ∀ k v, lookupKey k s = some v → lookupKey k t = some v

/-- A fetch outcome the orchestrator treats as absent: retry exhaustion
(`None`) or an exception-free but empty fragment (`""`). -/
def falsyOutcome (r : FetchResult) : Prop :=
  r = .success none ∨ r = .success (some "")

/-- An environment whose only deviation is a non-timeout navigation failure on
the 2016 season index; every other URL renders fine. -/
def envBad : Env :=
  ⟨fun url _ => if url = seasonUrl 2016 then .fail "boom" else .ok "x", fun _ => []⟩

/-- Scenario environment: the 2016 season index lists three standings pages;
the other seasons' indexes come back empty; every page render succeeds. -/
def envScn : Env :=
  ⟨fun url _ =>
      if url = seasonUrl 2016 then .ok "IDX"
      else if url = baseSite ++ "/p3.html" then .ok "P3"
      else .ok "",
   fun c => if c = "IDX" then ["/p1.html", "/p2.html", "/p3.html"] else []⟩

/-- Scenario store: two of the three standings pages are already persisted. -/
def storeScn : Store :=
  [((STANDINGS_DIR, "p1.html"), "A"), ((STANDINGS_DIR, "p2.html"), "B")]

/-- Environment whose 2016 index fetch succeeds with an empty fragment. -/
def envEmptyOk : Env :=
  ⟨fun url _ => if url = seasonUrl 2016 then .ok "" else .ok "x", fun _ => []⟩

/-- The same environment except the 2016 index times out on every attempt. -/
def envTimeout : Env :=
  ⟨fun url _ => if url = seasonUrl 2016 then .timeout else .ok "x", fun _ => []⟩

/-- The stat-key index of one team's summary. -/
def summLabels (bs : BoxScore) (tm : String) : List String :=
  (teamSummary (bs.basic tm) (bs.advanced tm)).map Prod.fst

/-- Structural sanity of one team's stat keys: no stat is named like one of the
frame's reserved columns.  (With such a collision pandas raises on the
duplicate-label column selection, so no record is emitted at all.) -/
def cleanTeam (bs : BoxScore) (tm : String) : Prop :=
  "total" ∉ summLabels bs tm ∧ "total_opp" ∉ summLabels bs tm ∧
    "won" ∉ summLabels bs tm

instance (bs : BoxScore) (tm : String) : Decidable (cleanTeam bs tm) := by
  unfold cleanTeam
  infer_instance

/-- Modelled from the spec for C8: "the maximum of that stat across individual
player rows, excluding the aggregate row" — per-column maxima over the player
rows only. -/
def specPlayerMaxes (stats : List String) (players : List (List Val)) : List (String × Val) :=
  stats.enum.map (fun p => (p.2, nanMax (players.map (fun r => r.getD p.1 none))))

/-! ## Association list lemmas -/

lemma lookupKey_append_some {α β : Type} [DecidableEq α] (k : α) (l₁ l₂ : List (α × β))
    (v : β) (h : lookupKey k l₁ = some v) : lookupKey k (l₁ ++ l₂) = some v := by
  induction l₁ with
  | nil => simp [lookupKey] at h
  | cons p rest ih =>
    rw [List.cons_append, lookupKey]
    rw [lookupKey] at h
    by_cases hp : p.1 = k
    · simpa [hp] using h
    · rw [if_neg hp] at h ⊢
      exact ih h

lemma lookupKey_append_none {α β : Type} [DecidableEq α] (k : α) (l₁ l₂ : List (α × β))
    (h : lookupKey k l₁ = none) : lookupKey k (l₁ ++ l₂) = lookupKey k l₂ := by
  induction l₁ with
  | nil => simp
  | cons p rest ih =>
    rw [List.cons_append, lookupKey]
    rw [lookupKey] at h
    by_cases hp : p.1 = k
    · simp [hp] at h
    · rw [if_neg hp] at h ⊢
      exact ih h

lemma lookupKey_none_of_notmem {α β : Type} [DecidableEq α] (k : α) (l : List (α × β))
    (h : ∀ q ∈ l, q.1 ≠ k) : lookupKey k l = none := by
  induction l with
  | nil => rfl
  | cons p rest ih =>
    rw [lookupKey, if_neg (h p (by simp))]
    exact ih (fun q hq => h q (by simp [hq]))

lemma lookupKey_none_of_append_none {α β : Type} [DecidableEq α] (k : α)
    (l₁ l₂ : List (α × β)) (h : lookupKey k (l₁ ++ l₂) = none) : lookupKey k l₁ = none := by
  cases hl : lookupKey k l₁ with
  | none => rfl
  | some v => rw [lookupKey_append_some k l₁ l₂ v hl] at h; simp at h

lemma SubC_refl (s : Store) : SubC s s := fun _ _ h => h

lemma SubC_trans {s t u : Store} (h1 : SubC s t) (h2 : SubC t u) : SubC s u :=
  fun k v h => h2 k v (h1 k v h)

lemma SubC_append (s Δ : Store) : SubC s (s ++ Δ) :=
  fun k v h => lookupKey_append_some k s Δ v h

/-! ## Fetcher lemmas -/

lemma fetchGo_all_timeout (net : Nat → AttemptResult) (d : Nat) :
    ∀ fuel a, (∀ i, a ≤ i → i < a + fuel → net i = .timeout) →
      fetchGo net d fuel a =
        ⟨(List.range fuel).map (fun i => d * (a + i)), fuel, .success none⟩ := by
  intro fuel
  induction fuel with
  | zero => intro a _; rfl
  | succ n ih =>
    intro a h
    have hnet : net a = .timeout := h a le_rfl (by omega)
    have ih2 := ih (a + 1) (fun i h1 h2 => h i (by omega) (by omega))
    simp only [fetchGo, hnet, ih2]
    congr 1
    rw [List.range_succ_eq_map, List.map_cons, List.map_map]
    refine congrArg₂ _ (by simp) (List.map_congr_left ?_)
    intro i _
    simp only [Function.comp_apply, Nat.succ_eq_add_one]
    rw [show a + 1 + i = a + (i + 1) by omega]

lemma fetchGo_delays (net : Nat → AttemptResult) (d : Nat) :
    ∀ fuel a, (fetchGo net d fuel a).delays =
      (List.range (fetchGo net d fuel a).attempts).map (fun i => d * (a + i)) := by
  intro fuel
  induction fuel with
  | zero => intro a; rfl
  | succ n ih =>
    intro a
    cases hnet : net a with
    | timeout =>
      simp only [fetchGo, hnet]
      rw [ih (a + 1), List.range_succ_eq_map, List.map_cons, List.map_map]
      refine congrArg₂ _ (by simp) (List.map_congr_left ?_)
      intro i _
      simp only [Function.comp_apply, Nat.succ_eq_add_one]
      rw [show a + 1 + i = a + (i + 1) by omega]
    | ok h => simp [fetchGo, hnet, List.range_succ]
    | fail e => simp [fetchGo, hnet, List.range_succ]

lemma fetchGo_fail (net : Nat → AttemptResult) (d : Nat) (e : String) :
    ∀ fuel a j, j < fuel → (∀ i, a ≤ i → i < a + j → net i = .timeout) →
      net (a + j) = .fail e →
      (fetchGo net d fuel a).attempts = j + 1 ∧
        (fetchGo net d fuel a).result = .raised e := by
  intro fuel
  induction fuel with
  | zero => intro a j hj _ _; omega
  | succ n ih =>
    intro a j hj hto hfail
    cases j with
    | zero =>
      have : net a = .fail e := by simpa using hfail
      simp [fetchGo, this]
    | succ m =>
      have hnet : net a = .timeout := hto a le_rfl (by omega)
      have ih2 := ih (a + 1) m (by omega)
        (fun i h1 h2 => hto i (by omega) (by omega))
        (by have : a + 1 + m = a + (m + 1) := by omega
            rw [this]; exact hfail)
      simp only [fetchGo, hnet]
      exact ⟨by rw [ih2.1], ih2.2⟩

/-- C5: a fetch call whose every attempt in the budget times out makes exactly
`retries` attempts and then returns an empty outcome (`None`), raising nothing. -/
theorem retryBudgetExhaustion (net : Nat → AttemptResult) (d k : Nat)
    (h : ∀ a, 1 ≤ a → a ≤ k → net a = .timeout) :
    (fetch_html_content net d k).attempts = k ∧
      (fetch_html_content net d k).result = .success none := by
  have := fetchGo_all_timeout net d k 1 (fun i h1 h2 => h i h1 (by omega))
  unfold fetch_html_content
  rw [this]
  exact ⟨rfl, rfl⟩

theorem retryBudgetExhaustionWitness :
    (fetch_html_content (fun _ => AttemptResult.timeout) 9 3).attempts = 3 ∧
      (fetch_html_content (fun _ => AttemptResult.timeout) 9 3).result =
        FetchResult.success none :=
  retryBudgetExhaustion (fun _ => AttemptResult.timeout) 9 3 (fun _ _ _ => rfl)

/-- C7 counterexample: a non-timeout failure on the first season's index fetch
ends the whole run — no later season is ever fetched and the error escapes the
orchestrator — refuting "aborts only the current resource's branch of the
crawl, not the rest of the crawl". -/
theorem otherFailureAbortsWholeCrawl :
    (getdataMain envBad []).err = some "boom" ∧
      (getdataMain envBad []).log = [(seasonUrl 2016, FetchKind.seasonIdx)] := by
  constructor <;> rfl

/-- C7 (amended): a non-timeout navigation failure is not retried (the attempt
count stops right there) and surfaces immediately as a raised error; its
propagation aborts the current resource's branch and the remainder of the
crawl, since no handler above the fetch contains it. -/
theorem otherFailureNotRetried :
    (∀ (net : Nat → AttemptResult) (d k a : Nat) (e : String), 1 ≤ a → a ≤ k →
      (∀ b, 1 ≤ b → b < a → net b = .timeout) → net a = .fail e →
      (fetch_html_content net d k).attempts = a ∧
        (fetch_html_content net d k).result = .raised e) ∧
    (∀ (env : Env) (store : Store) (s : Nat) (rest : List Nat) (e : String),
      (scrape_season_data env store s).err = some e →
      seasonsLoop env store (s :: rest) =
        ⟨(scrape_season_data env store s).store, (scrape_season_data env store s).log,
          some e⟩) := by
  constructor
  · intro net d k a e h1 h2 hto hfail
    have := fetchGo_fail net d e k 1 (a - 1) (by omega)
      (fun i hi1 hi2 => hto i hi1 (by omega))
      (by rw [show 1 + (a - 1) = a by omega]; exact hfail)
    unfold fetch_html_content
    exact ⟨by rw [this.1]; omega, this.2⟩
  · intro env store s rest e herr
    simp only [seasonsLoop, herr]

theorem otherFailureNotRetriedWitness :
    ((fetch_html_content (fun a => if a = 1 then .timeout else .fail "nav") 9 12).attempts = 2 ∧
      (fetch_html_content (fun a => if a = 1 then .timeout else .fail "nav") 9 12).result =
        FetchResult.raised "nav") ∧
      seasonsLoop envBad [] [2016, 2017] =
        ⟨(scrape_season_data envBad [] 2016).store, (scrape_season_data envBad [] 2016).log,
          some "boom"⟩ :=
  ⟨otherFailureNotRetried.1 (fun a => if a = 1 then .timeout else .fail "nav") 9 12 2 "nav"
      (by omega) (by omega)
      (fun b hb1 hb2 => by
        have : b = 1 := by omega
        simp [this])
      (by simp),
    otherFailureNotRetried.2 envBad [] 2016 [2017] "boom" rfl⟩

/-- C6: in every fetch call a sleep precedes every attempt made, including the
first; the sleep before attempt `i` (1-indexed) is `sleep * i`, so the delay
sequence is linear and non-decreasing. -/
theorem linearBackoffDelays (net : Nat → AttemptResult) (d k : Nat) :
    (fetch_html_content net d k).delays =
      (List.range (fetch_html_content net d k).attempts).map (fun i => d * (i + 1)) ∧
      (fetch_html_content net d k).delays.Pairwise (· ≤ ·) := by
  have hd := fetchGo_delays net d k 1
  unfold fetch_html_content
  have hfun : ((fun i => d * (1 + i)) : Nat → Nat) = fun i => d * (i + 1) := by
    funext i; rw [Nat.add_comm 1 i]
  rw [hd, hfun]
  refine ⟨rfl, ?_⟩
  rw [List.pairwise_map]
  exact (List.pairwise_lt_range _).imp
    (fun hij => Nat.mul_le_mul_left d (by omega))

/-! ## Orchestrator store-growth lemmas -/

lemma resourceLoop_append (env : Env) (dir : String) (kind : FetchKind) :
    ∀ (ps : List String) (store : Store), ∃ Δ,
      (resourceLoop env dir kind store ps).store = store ++ Δ ∧
        ∀ q ∈ Δ, q.1.1 = dir := by
  intro ps
  induction ps with
  | nil => intro store; exact ⟨[], by simp [resourceLoop], by simp⟩
  | cons u rest ih =>
    intro store
    cases hl : lookupKey (dir, lastSeg u) store with
    | some v =>
      obtain ⟨Δ, hΔ, hdir⟩ := ih store
      exact ⟨Δ, by simp [resourceLoop, hl, hΔ], hdir⟩
    | none =>
      cases hf : orchFetch env u with
      | raised e => exact ⟨[], by simp [resourceLoop, hl, hf], by simp⟩
      | success h =>
        by_cases hpy : pyFalsy h = true
        · obtain ⟨Δ, hΔ, hdir⟩ := ih store
          exact ⟨Δ, by simp [resourceLoop, hl, hf, hpy, hΔ], hdir⟩
        · obtain ⟨Δ, hΔ, hdir⟩ := ih (store ++ [((dir, lastSeg u), h.getD "")])
          refine ⟨((dir, lastSeg u), h.getD "") :: Δ, ?_, ?_⟩
          · simp [resourceLoop, hl, hf, hpy, hΔ]
          · intro q hq
            rcases List.mem_cons.mp hq with hq | hq
            · rw [hq]
            · exact hdir q hq

lemma scrape_season_append (env : Env) (store : Store) (n : Nat) : ∃ Δ,
    (scrape_season_data env store n).store = store ++ Δ ∧
      ∀ q ∈ Δ, q.1.1 = STANDINGS_DIR := by
  cases hf : orchFetch env (seasonUrl n) with
  | raised e => exact ⟨[], by simp [scrape_season_data, hf], by simp⟩
  | success h =>
    by_cases hpy : pyFalsy h = true
    · exact ⟨[], by simp [scrape_season_data, hf, hpy], by simp⟩
    · obtain ⟨Δ, hΔ, hdir⟩ := resourceLoop_append env STANDINGS_DIR .schedPage
        ((env.links (h.getD "")).map (fun l => baseSite ++ l)) store
      exact ⟨Δ, by simp [scrape_season_data, hf, hpy, hΔ], hdir⟩

lemma seasonsLoop_append (env : Env) :
    ∀ (ns : List Nat) (store : Store), ∃ Δ,
      (seasonsLoop env store ns).store = store ++ Δ ∧
        ∀ q ∈ Δ, q.1.1 = STANDINGS_DIR := by
  intro ns
  induction ns with
  | nil => intro store; exact ⟨[], by simp [seasonsLoop], by simp⟩
  | cons s rest ih =>
    intro store
    obtain ⟨Δ1, hΔ1, hd1⟩ := scrape_season_append env store s
    cases he : (scrape_season_data env store s).err with
    | some e => exact ⟨Δ1, by simp [seasonsLoop, he, hΔ1], hd1⟩
    | none =>
      obtain ⟨Δ2, hΔ2, hd2⟩ := ih (scrape_season_data env store s).store
      refine ⟨Δ1 ++ Δ2, ?_, ?_⟩
      · simp only [seasonsLoop, he]
        rw [hΔ2, hΔ1, List.append_assoc]
      · intro q hq
        rcases List.mem_append.mp hq with hq | hq
        · exact hd1 q hq
        · exact hd2 q hq

lemma scrape_game_append (env : Env) (store : Store) (f : String) : ∃ Δ,
    (scrape_game_data env store f).store = store ++ Δ ∧
      ∀ q ∈ Δ, q.1.1 = SCORES_DIR := by
  exact resourceLoop_append env SCORES_DIR .boxScore _ store

lemma filesLoop_append (env : Env) :
    ∀ (fs : List String) (store : Store), ∃ Δ,
      (filesLoop env store fs).store = store ++ Δ ∧ ∀ q ∈ Δ, q.1.1 = SCORES_DIR := by
  intro fs
  induction fs with
  | nil => intro store; exact ⟨[], by simp [filesLoop], by simp⟩
  | cons f rest ih =>
    intro store
    obtain ⟨Δ1, hΔ1, hd1⟩ := scrape_game_append env store f
    cases he : (scrape_game_data env store f).err with
    | some e => exact ⟨Δ1, by simp [filesLoop, he, hΔ1], hd1⟩
    | none =>
      obtain ⟨Δ2, hΔ2, hd2⟩ := ih (scrape_game_data env store f).store
      refine ⟨Δ1 ++ Δ2, ?_, ?_⟩
      · simp only [filesLoop, he]
        rw [hΔ2, hΔ1, List.append_assoc]
      · intro q hq
        rcases List.mem_append.mp hq with hq | hq
        · exact hd1 q hq
        · exact hd2 q hq

lemma seasonsFilesLoop_append (env : Env) (files : List String) :
    ∀ (ns : List Nat) (store : Store), ∃ Δ,
      (seasonsFilesLoop env store files ns).store = store ++ Δ ∧
        ∀ q ∈ Δ, q.1.1 = SCORES_DIR := by
  intro ns
  induction ns with
  | nil => intro store; exact ⟨[], by simp [seasonsFilesLoop], by simp⟩
  | cons s rest ih =>
    intro store
    obtain ⟨Δ1, hΔ1, hd1⟩ :=
      filesLoop_append env (files.filter (fun f => strContains f (toString s))) store
    cases he : (filesLoop env store (files.filter (fun f => strContains f (toString s)))).err with
    | some e => exact ⟨Δ1, by simp [seasonsFilesLoop, he, hΔ1], hd1⟩
    | none =>
      obtain ⟨Δ2, hΔ2, hd2⟩ :=
        ih (filesLoop env store (files.filter (fun f => strContains f (toString s)))).store
      refine ⟨Δ1 ++ Δ2, ?_, ?_⟩
      · simp only [seasonsFilesLoop, he]
        rw [hΔ2, hΔ1, List.append_assoc]
      · intro q hq
        rcases List.mem_append.mp hq with hq | hq
        · exact hd1 q hq
        · exact hd2 q hq

/-! ## Orchestrator fetch-log lemmas: a store-backed resource is fetched only
when its key is absent from the store. -/

lemma resourceLoop_log (env : Env) (dir : String) (kind : FetchKind) :
    ∀ (ps : List String) (store : Store) (q : String × FetchKind),
      q ∈ (resourceLoop env dir kind store ps).log →
      q.2 = kind ∧ lookupKey (dir, lastSeg q.1) store = none := by
  intro ps
  induction ps with
  | nil => intro store q hq; simp [resourceLoop] at hq
  | cons u rest ih =>
    intro store q hq
    cases hl : lookupKey (dir, lastSeg u) store with
    | some v =>
      rw [resourceLoop] at hq
      rw [hl] at hq
      exact ih store q hq
    | none =>
      cases hf : orchFetch env u with
      | raised e =>
        simp only [resourceLoop, hl, hf] at hq
        rcases List.mem_singleton.mp hq with rfl
        exact ⟨rfl, hl⟩
      | success h =>
        by_cases hpy : pyFalsy h = true
        · simp only [resourceLoop, hl, hf, hpy, if_true] at hq
          rcases List.mem_cons.mp hq with rfl | hq
          · exact ⟨rfl, hl⟩
          · exact ih store q hq
        · simp only [resourceLoop, hl, hf, hpy, if_false, Bool.false_eq_true] at hq
          rcases List.mem_cons.mp hq with rfl | hq
          · exact ⟨rfl, hl⟩
          · obtain ⟨hk, hnone⟩ := ih (store ++ [((dir, lastSeg u), h.getD "")]) q hq
            exact ⟨hk, lookupKey_none_of_append_none _ _ _ hnone⟩

lemma scrape_season_log (env : Env) (store : Store) (n : Nat)
    (q : String × FetchKind) (hq : q ∈ (scrape_season_data env store n).log)
    (hk : q.2 ≠ FetchKind.seasonIdx) :
    lookupKey (dirOf q.2, lastSeg q.1) store = none := by
  cases hf : orchFetch env (seasonUrl n) with
  | raised e =>
    simp only [scrape_season_data, hf] at hq
    rcases List.mem_singleton.mp hq with rfl
    exact absurd rfl hk
  | success h =>
    by_cases hpy : pyFalsy h = true
    · simp only [scrape_season_data, hf, hpy, if_true] at hq
      rcases List.mem_singleton.mp hq with rfl
      exact absurd rfl hk
    · simp only [scrape_season_data, hf, hpy, if_false, Bool.false_eq_true] at hq
      rcases List.mem_cons.mp hq with rfl | hq
      · exact absurd rfl hk
      · obtain ⟨hkq, hnone⟩ := resourceLoop_log env STANDINGS_DIR .schedPage _ store q hq
        rw [hkq]
        exact hnone

lemma seasonsLoop_log (env : Env) :
    ∀ (ns : List Nat) (store : Store) (q : String × FetchKind),
      q ∈ (seasonsLoop env store ns).log → q.2 ≠ FetchKind.seasonIdx →
      lookupKey (dirOf q.2, lastSeg q.1) store = none := by
  intro ns
  induction ns with
  | nil => intro store q hq _; simp [seasonsLoop] at hq
  | cons s rest ih =>
    intro store q hq hk
    cases he : (scrape_season_data env store s).err with
    | some e =>
      simp only [seasonsLoop, he] at hq
      exact scrape_season_log env store s q hq hk
    | none =>
      simp only [seasonsLoop, he] at hq
      rcases List.mem_append.mp hq with hq | hq
      · exact scrape_season_log env store s q hq hk
      · have hnone := ih (scrape_season_data env store s).store q hq hk
        obtain ⟨Δ, hΔ, _⟩ := scrape_season_append env store s
        rw [hΔ] at hnone
        exact lookupKey_none_of_append_none _ _ _ hnone

lemma scrape_game_log (env : Env) (store : Store) (f : String)
    (q : String × FetchKind) (hq : q ∈ (scrape_game_data env store f).log) :
    q.2 = FetchKind.boxScore ∧ lookupKey (SCORES_DIR, lastSeg q.1) store = none :=
  resourceLoop_log env SCORES_DIR .boxScore _ store q hq

lemma filesLoop_log (env : Env) :
    ∀ (fs : List String) (store : Store) (q : String × FetchKind),
      q ∈ (filesLoop env store fs).log →
      q.2 = FetchKind.boxScore ∧ lookupKey (SCORES_DIR, lastSeg q.1) store = none := by
  intro fs
  induction fs with
  | nil => intro store q hq; simp [filesLoop] at hq
  | cons f rest ih =>
    intro store q hq
    cases he : (scrape_game_data env store f).err with
    | some e =>
      simp only [filesLoop, he] at hq
      exact scrape_game_log env store f q hq
    | none =>
      simp only [filesLoop, he] at hq
      rcases List.mem_append.mp hq with hq | hq
      · exact scrape_game_log env store f q hq
      · obtain ⟨hkq, hnone⟩ := ih (scrape_game_data env store f).store q hq
        obtain ⟨Δ, hΔ, _⟩ := scrape_game_append env store f
        rw [hΔ] at hnone
        exact ⟨hkq, lookupKey_none_of_append_none _ _ _ hnone⟩

lemma seasonsFilesLoop_log (env : Env) (files : List String) :
    ∀ (ns : List Nat) (store : Store) (q : String × FetchKind),
      q ∈ (seasonsFilesLoop env store files ns).log →
      q.2 = FetchKind.boxScore ∧ lookupKey (SCORES_DIR, lastSeg q.1) store = none := by
  intro ns
  induction ns with
  | nil => intro store q hq; simp [seasonsFilesLoop] at hq
  | cons s rest ih =>
    intro store q hq
    cases he : (filesLoop env store (files.filter (fun f => strContains f (toString s)))).err with
    | some e =>
      simp only [seasonsFilesLoop, he] at hq
      exact filesLoop_log env _ store q hq
    | none =>
      simp only [seasonsFilesLoop, he] at hq
      rcases List.mem_append.mp hq with hq | hq
      · exact filesLoop_log env _ store q hq
      · obtain ⟨hkq, hnone⟩ := ih _ q hq
        obtain ⟨Δ, hΔ, _⟩ :=
          filesLoop_append env (files.filter (fun f => strContains f (toString s))) store
        rw [hΔ] at hnone
        exact ⟨hkq, lookupKey_none_of_append_none _ _ _ hnone⟩

lemma getdataMain_log (env : Env) (store : Store) (q : String × FetchKind)
    (hq : q ∈ (getdataMain env store).log) (hk : q.2 ≠ FetchKind.seasonIdx) :
    lookupKey (dirOf q.2, lastSeg q.1) store = none := by
  cases he : (seasonsLoop env store SEASONS).err with
  | some e =>
    simp only [getdataMain, he] at hq
    exact seasonsLoop_log env SEASONS store q hq hk
  | none =>
    simp only [getdataMain, he] at hq
    rcases List.mem_append.mp hq with hq | hq
    · exact seasonsLoop_log env SEASONS store q hq hk
    · obtain ⟨hkq, hnone⟩ := seasonsFilesLoop_log env _ SEASONS _ q hq
      obtain ⟨Δ, hΔ, _⟩ := seasonsLoop_append env SEASONS store
      rw [hΔ] at hnone
      rw [hkq]
      exact lookupKey_none_of_append_none _ _ _ hnone

/-! ## Orchestrator rerun lemmas: running a phase again on a store that already
contains everything the first run produced writes nothing new. -/

lemma lookup_dir_stable (d : String) (s Δ : Store)
    (hd : ∀ q ∈ Δ, q.1.1 ≠ d) (n : String) :
    lookupKey (d, n) (s ++ Δ) = lookupKey (d, n) s := by
  cases hls : lookupKey (d, n) s with
  | some v => exact lookupKey_append_some _ _ _ _ hls
  | none =>
    rw [lookupKey_append_none _ _ _ hls]
    exact lookupKey_none_of_notmem _ _ (fun q hq hcon => by
      have hqd := hd q hq
      rw [hcon] at hqd
      exact hqd rfl)

lemma resourceLoop_rerun (env : Env) (dir : String) (kind : FetchKind) :
    ∀ (ps : List String) (s t : Store),
      (resourceLoop env dir kind s ps).err = none →
      SubC s t → SubC (resourceLoop env dir kind s ps).store t →
      (resourceLoop env dir kind t ps).store = t ∧
        (resourceLoop env dir kind t ps).err = none := by
  intro ps
  induction ps with
  | nil => intro s t _ _ _; exact ⟨rfl, rfl⟩
  | cons u rest ih =>
    intro s t herr hst hrt
    cases hl : lookupKey (dir, lastSeg u) s with
    | some v =>
      have hlt : lookupKey (dir, lastSeg u) t = some v := hst _ v hl
      simp only [resourceLoop, hl] at herr hrt
      simp only [resourceLoop, hlt]
      exact ih s t herr hst hrt
    | none =>
      cases hf : orchFetch env u with
      | raised e => simp [resourceLoop, hl, hf] at herr
      | success h =>
        by_cases hpy : pyFalsy h = true
        · simp only [resourceLoop, hl, hf, hpy, if_true] at herr hrt
          cases hlt : lookupKey (dir, lastSeg u) t with
          | some w =>
            simp only [resourceLoop, hlt]
            exact ih s t herr hst hrt
          | none =>
            simp only [resourceLoop, hlt, hf, hpy, if_true]
            exact ih s t herr hst hrt
        · simp only [resourceLoop, hl, hf, hpy, if_false, Bool.false_eq_true] at herr hrt
          have hkey : lookupKey (dir, lastSeg u) (s ++ [((dir, lastSeg u), h.getD "")]) =
              some (h.getD "") := by
            rw [lookupKey_append_none _ _ _ hl]
            simp [lookupKey]
          have hmem : lookupKey (dir, lastSeg u)
              (resourceLoop env dir kind (s ++ [((dir, lastSeg u), h.getD "")]) rest).store =
              some (h.getD "") := by
            obtain ⟨Δ, hΔ, _⟩ :=
              resourceLoop_append env dir kind rest (s ++ [((dir, lastSeg u), h.getD "")])
            rw [hΔ]
            exact lookupKey_append_some _ _ _ _ hkey
          have hlt : lookupKey (dir, lastSeg u) t = some (h.getD "") :=
            hrt _ _ hmem
          have hst' : SubC (s ++ [((dir, lastSeg u), h.getD "")]) t := by
            intro k v hv
            cases hks : lookupKey k s with
            | some v0 =>
              rw [lookupKey_append_some _ _ _ _ hks] at hv
              rw [← hv]
              exact hst _ v0 hks
            | none =>
              rw [lookupKey_append_none _ _ _ hks] at hv
              rw [lookupKey] at hv
              by_cases hk : (dir, lastSeg u) = k
              · rw [if_pos hk] at hv
                rw [← hk, ← hv]
                exact hlt
              · rw [if_neg hk] at hv
                simp [lookupKey] at hv
          simp only [resourceLoop, hlt]
          exact ih _ t herr hst' hrt

lemma scrape_season_rerun (env : Env) (s t : Store) (n : Nat)
    (herr : (scrape_season_data env s n).err = none)
    (hst : SubC s t) (hrt : SubC (scrape_season_data env s n).store t) :
    (scrape_season_data env t n).store = t ∧ (scrape_season_data env t n).err = none := by
  cases hf : orchFetch env (seasonUrl n) with
  | raised e => simp [scrape_season_data, hf] at herr
  | success h =>
    by_cases hpy : pyFalsy h = true
    · simp [scrape_season_data, hf, hpy]
    · simp only [scrape_season_data, hf, hpy, if_false, Bool.false_eq_true] at herr hrt
      simp only [scrape_season_data, hf, hpy, if_false, Bool.false_eq_true]
      exact resourceLoop_rerun env STANDINGS_DIR .schedPage _ s t herr hst hrt

lemma seasonsLoop_rerun (env : Env) :
    ∀ (ns : List Nat) (s t : Store),
      (seasonsLoop env s ns).err = none →
      SubC s t → SubC (seasonsLoop env s ns).store t →
      (seasonsLoop env t ns).store = t ∧ (seasonsLoop env t ns).err = none := by
  intro ns
  induction ns with
  | nil => intro s t _ _ _; exact ⟨rfl, rfl⟩
  | cons n rest ih =>
    intro s t herr hst hrt
    cases he : (scrape_season_data env s n).err with
    | some e => simp [seasonsLoop, he] at herr
    | none =>
      simp only [seasonsLoop, he] at herr hrt
      have hsub1 : SubC (scrape_season_data env s n).store t := by
        obtain ⟨Δ, hΔ, _⟩ := seasonsLoop_append env rest (scrape_season_data env s n).store
        exact SubC_trans (by rw [hΔ]; exact SubC_append _ _) hrt
      have hs := scrape_season_rerun env s t n he hst hsub1
      have hrec := ih (scrape_season_data env s n).store t herr hsub1 hrt
      simp only [seasonsLoop, hs.2]
      rw [hs.1]
      exact hrec

lemma scrape_game_rerun (env : Env) (s t : Store) (f : String)
    (herr : (scrape_game_data env s f).err = none)
    (hst : SubC s t) (hrt : SubC (scrape_game_data env s f).store t)
    (hfile : lookupKey (STANDINGS_DIR, f) t = lookupKey (STANDINGS_DIR, f) s) :
    (scrape_game_data env t f).store = t ∧ (scrape_game_data env t f).err = none := by
  unfold scrape_game_data at herr hrt ⊢
  rw [hfile]
  exact resourceLoop_rerun env SCORES_DIR .boxScore _ s t herr hst hrt

lemma filesLoop_rerun (env : Env) :
    ∀ (fs : List String) (s t : Store),
      (filesLoop env s fs).err = none →
      SubC s t → SubC (filesLoop env s fs).store t →
      (∀ n, lookupKey (STANDINGS_DIR, n) t = lookupKey (STANDINGS_DIR, n) s) →
      (filesLoop env t fs).store = t ∧ (filesLoop env t fs).err = none := by
  intro fs
  induction fs with
  | nil => intro s t _ _ _ _; exact ⟨rfl, rfl⟩
  | cons f rest ih =>
    intro s t herr hst hrt hstand
    cases he : (scrape_game_data env s f).err with
    | some e => simp [filesLoop, he] at herr
    | none =>
      simp only [filesLoop, he] at herr hrt
      have hsub1 : SubC (scrape_game_data env s f).store t := by
        obtain ⟨Δ, hΔ, _⟩ := filesLoop_append env rest (scrape_game_data env s f).store
        exact SubC_trans (by rw [hΔ]; exact SubC_append _ _) hrt
      have hg := scrape_game_rerun env s t f he hst hsub1 (hstand f)
      have hstand' : ∀ n, lookupKey (STANDINGS_DIR, n) t =
          lookupKey (STANDINGS_DIR, n) (scrape_game_data env s f).store := by
        intro n
        obtain ⟨Δ, hΔ, hd⟩ := scrape_game_append env s f
        rw [hΔ, lookup_dir_stable STANDINGS_DIR s Δ
          (fun q hq hcon => by
            have := hd q hq
            rw [hcon] at this
            exact absurd this (by decide))]
        exact hstand n
      have hrec := ih (scrape_game_data env s f).store t herr hsub1 hrt hstand'
      simp only [filesLoop, hg.2]
      rw [hg.1]
      exact hrec

lemma seasonsFilesLoop_rerun (env : Env) (files : List String) :
    ∀ (ns : List Nat) (s t : Store),
      (seasonsFilesLoop env s files ns).err = none →
      SubC s t → SubC (seasonsFilesLoop env s files ns).store t →
      (∀ n, lookupKey (STANDINGS_DIR, n) t = lookupKey (STANDINGS_DIR, n) s) →
      (seasonsFilesLoop env t files ns).store = t ∧
        (seasonsFilesLoop env t files ns).err = none := by
  intro ns
  induction ns with
  | nil => intro s t _ _ _ _; exact ⟨rfl, rfl⟩
  | cons n rest ih =>
    intro s t herr hst hrt hstand
    cases he : (filesLoop env s (files.filter (fun f => strContains f (toString n)))).err with
    | some e => simp [seasonsFilesLoop, he] at herr
    | none =>
      simp only [seasonsFilesLoop, he] at herr hrt
      have hsub1 : SubC (filesLoop env s (files.filter (fun f => strContains f (toString n)))).store t := by
        obtain ⟨Δ, hΔ, _⟩ := seasonsFilesLoop_append env files rest
          (filesLoop env s (files.filter (fun f => strContains f (toString n)))).store
        exact SubC_trans (by rw [hΔ]; exact SubC_append _ _) hrt
      have hg := filesLoop_rerun env _ s t he hst hsub1 hstand
      have hstand' : ∀ m, lookupKey (STANDINGS_DIR, m) t =
          lookupKey (STANDINGS_DIR, m)
            (filesLoop env s (files.filter (fun f => strContains f (toString n)))).store := by
        intro m
        obtain ⟨Δ, hΔ, hd⟩ :=
          filesLoop_append env (files.filter (fun f => strContains f (toString n))) s
        rw [hΔ, lookup_dir_stable STANDINGS_DIR s Δ
          (fun q hq hcon => by
            have := hd q hq
            rw [hcon] at this
            exact absurd this (by decide))]
        exact hstand m
      have hrec := ih _ t herr hsub1 hrt hstand'
      simp only [seasonsFilesLoop, hg.2]
      rw [hg.1]
      exact hrec

lemma listdir_scores_nil (Δ : Store) (hd : ∀ q ∈ Δ, q.1.1 = SCORES_DIR) :
    listdir STANDINGS_DIR Δ = [] := by
  rw [listdir, List.filterMap_eq_nil_iff]
  intro q hq
  rw [if_neg]
  intro hcon
  have := hd q hq
  rw [hcon] at this
  exact absurd this (by decide)

lemma getdataMain_rerun (env : Env) (store : Store)
    (h : (getdataMain env store).err = none) :
    (getdataMain env (getdataMain env store).store).store = (getdataMain env store).store := by
  cases he : (seasonsLoop env store SEASONS).err with
  | some e => simp [getdataMain, he] at h
  | none =>
    simp only [getdataMain, he] at h ⊢
    have hΔ1 := seasonsLoop_append env SEASONS store
    obtain ⟨Δ2, hΔ2, hd2⟩ := seasonsFilesLoop_append env
      (listdir STANDINGS_DIR (seasonsLoop env store SEASONS).store) SEASONS
      (seasonsLoop env store SEASONS).store
    have hsubA : SubC (seasonsLoop env store SEASONS).store
        (seasonsFilesLoop env (seasonsLoop env store SEASONS).store
          (listdir STANDINGS_DIR (seasonsLoop env store SEASONS).store) SEASONS).store := by
      rw [hΔ2]; exact SubC_append _ _
    have hsub0 : SubC store
        (seasonsFilesLoop env (seasonsLoop env store SEASONS).store
          (listdir STANDINGS_DIR (seasonsLoop env store SEASONS).store) SEASONS).store := by
      obtain ⟨Δ1, hΔ1e, _⟩ := hΔ1
      exact SubC_trans (by rw [hΔ1e]; exact SubC_append _ _) hsubA
    have hS := seasonsLoop_rerun env SEASONS store _ he hsub0 hsubA
    have hfiles : listdir STANDINGS_DIR
        (seasonsFilesLoop env (seasonsLoop env store SEASONS).store
          (listdir STANDINGS_DIR (seasonsLoop env store SEASONS).store) SEASONS).store =
        listdir STANDINGS_DIR (seasonsLoop env store SEASONS).store := by
      rw [hΔ2, listdir, List.filterMap_append, ← listdir, ← listdir, listdir_scores_nil Δ2 hd2,
        List.append_nil]
    have hstand : ∀ n, lookupKey (STANDINGS_DIR, n)
        (seasonsFilesLoop env (seasonsLoop env store SEASONS).store
          (listdir STANDINGS_DIR (seasonsLoop env store SEASONS).store) SEASONS).store =
        lookupKey (STANDINGS_DIR, n) (seasonsLoop env store SEASONS).store := by
      intro n
      rw [hΔ2]
      exact lookup_dir_stable STANDINGS_DIR _ Δ2
        (fun q hq hcon => by
          have := hd2 q hq
          rw [hcon] at this
          exact absurd this (by decide)) n
    have hF := seasonsFilesLoop_rerun env
      (listdir STANDINGS_DIR (seasonsLoop env store SEASONS).store) SEASONS
      (seasonsLoop env store SEASONS).store _ h hsubA (SubC_refl _) hstand
    simp only [getdataMain, hS.2]
    rw [hS.1, hfiles]
    exact hF.1

/-! ## Falsy-equivalence congruence: an exception-free empty fragment drives
the orchestrator exactly like retry exhaustion. -/

lemma falsyOutcome_pyFalsy {r : FetchResult} (hfo : falsyOutcome r) :
    ∀ h, r = .success h → pyFalsy h = true := by
  rcases hfo with hr | hr <;> intro h hh <;> rw [hr] at hh <;>
    cases hh <;> rfl

lemma resourceLoop_congr (env₁ env₂ : Env) (dir : String) (kind : FetchKind)
    (henv : ∀ u, orchFetch env₁ u = orchFetch env₂ u ∨
      (falsyOutcome (orchFetch env₁ u) ∧ falsyOutcome (orchFetch env₂ u))) :
    ∀ (ps : List String) (store : Store),
      resourceLoop env₁ dir kind store ps = resourceLoop env₂ dir kind store ps := by
  intro ps
  induction ps with
  | nil => intro store; rfl
  | cons u rest ih =>
    intro store
    cases hl : lookupKey (dir, lastSeg u) store with
    | some v => simp only [resourceLoop, hl]; exact ih store
    | none =>
      rcases henv u with heq | ⟨hf1, hf2⟩
      · cases hfetch : orchFetch env₁ u with
        | raised e =>
          have hfetch2 : orchFetch env₂ u = .raised e := by rw [← heq]; exact hfetch
          simp only [resourceLoop, hl, hfetch, hfetch2]
        | success h =>
          have hfetch2 : orchFetch env₂ u = .success h := by rw [← heq]; exact hfetch
          by_cases hpy : pyFalsy h = true
          · simp only [resourceLoop, hl, hfetch, hfetch2, hpy, if_true]
            rw [ih store]
          · simp only [resourceLoop, hl, hfetch, hfetch2, hpy, if_false,
              Bool.false_eq_true]
            rw [ih (store ++ [((dir, lastSeg u), h.getD "")])]
      · cases hfetch1 : orchFetch env₁ u with
        | raised e => rw [hfetch1] at hf1; rcases hf1 with h | h <;> simp at h
        | success h1 =>
          cases hfetch2 : orchFetch env₂ u with
          | raised e => rw [hfetch2] at hf2; rcases hf2 with h | h <;> simp at h
          | success h2 =>
            have hpy1 := falsyOutcome_pyFalsy (hfetch1 ▸ hf1) h1 rfl
            have hpy2 := falsyOutcome_pyFalsy (hfetch2 ▸ hf2) h2 rfl
            simp only [resourceLoop, hl, hfetch1, hfetch2, hpy1, hpy2, if_true]
            rw [ih store]

lemma scrape_season_congr (env₁ env₂ : Env) (hlinks : env₁.links = env₂.links)
    (henv : ∀ u, orchFetch env₁ u = orchFetch env₂ u ∨
      (falsyOutcome (orchFetch env₁ u) ∧ falsyOutcome (orchFetch env₂ u)))
    (store : Store) (n : Nat) :
    scrape_season_data env₁ store n = scrape_season_data env₂ store n := by
  rcases henv (seasonUrl n) with heq | ⟨hf1, hf2⟩
  · cases hfetch : orchFetch env₁ (seasonUrl n) with
    | raised e =>
      have hfetch2 : orchFetch env₂ (seasonUrl n) = .raised e := by rw [← heq]; exact hfetch
      simp only [scrape_season_data, hfetch, hfetch2]
    | success h =>
      have hfetch2 : orchFetch env₂ (seasonUrl n) = .success h := by rw [← heq]; exact hfetch
      by_cases hpy : pyFalsy h = true
      · simp only [scrape_season_data, hfetch, hfetch2, hpy, if_true]
      · simp only [scrape_season_data, hfetch, hfetch2, hpy, if_false, Bool.false_eq_true,
          hlinks]
        rw [resourceLoop_congr env₁ env₂ STANDINGS_DIR .schedPage henv]
  · cases hfetch1 : orchFetch env₁ (seasonUrl n) with
    | raised e => rw [hfetch1] at hf1; rcases hf1 with h | h <;> simp at h
    | success h1 =>
      cases hfetch2 : orchFetch env₂ (seasonUrl n) with
      | raised e => rw [hfetch2] at hf2; rcases hf2 with h | h <;> simp at h
      | success h2 =>
        have hpy1 := falsyOutcome_pyFalsy (hfetch1 ▸ hf1) h1 rfl
        have hpy2 := falsyOutcome_pyFalsy (hfetch2 ▸ hf2) h2 rfl
        simp only [scrape_season_data, hfetch1, hfetch2, hpy1, hpy2, if_true]

lemma seasonsLoop_congr (env₁ env₂ : Env) (hlinks : env₁.links = env₂.links)
    (henv : ∀ u, orchFetch env₁ u = orchFetch env₂ u ∨
      (falsyOutcome (orchFetch env₁ u) ∧ falsyOutcome (orchFetch env₂ u))) :
    ∀ (ns : List Nat) (store : Store),
      seasonsLoop env₁ store ns = seasonsLoop env₂ store ns := by
  intro ns
  induction ns with
  | nil => intro store; rfl
  | cons n rest ih =>
    intro store
    simp only [seasonsLoop]
    rw [scrape_season_congr env₁ env₂ hlinks henv store n, ih]

lemma scrape_game_congr (env₁ env₂ : Env) (hlinks : env₁.links = env₂.links)
    (henv : ∀ u, orchFetch env₁ u = orchFetch env₂ u ∨
      (falsyOutcome (orchFetch env₁ u) ∧ falsyOutcome (orchFetch env₂ u)))
    (store : Store) (f : String) :
    scrape_game_data env₁ store f = scrape_game_data env₂ store f := by
  unfold scrape_game_data
  rw [hlinks, resourceLoop_congr env₁ env₂ SCORES_DIR .boxScore henv]

lemma filesLoop_congr (env₁ env₂ : Env) (hlinks : env₁.links = env₂.links)
    (henv : ∀ u, orchFetch env₁ u = orchFetch env₂ u ∨
      (falsyOutcome (orchFetch env₁ u) ∧ falsyOutcome (orchFetch env₂ u))) :
    ∀ (fs : List String) (store : Store),
      filesLoop env₁ store fs = filesLoop env₂ store fs := by
  intro fs
  induction fs with
  | nil => intro store; rfl
  | cons f rest ih =>
    intro store
    simp only [filesLoop]
    rw [scrape_game_congr env₁ env₂ hlinks henv store f, ih]

lemma seasonsFilesLoop_congr (env₁ env₂ : Env) (hlinks : env₁.links = env₂.links)
    (henv : ∀ u, orchFetch env₁ u = orchFetch env₂ u ∨
      (falsyOutcome (orchFetch env₁ u) ∧ falsyOutcome (orchFetch env₂ u)))
    (files : List String) :
    ∀ (ns : List Nat) (store : Store),
      seasonsFilesLoop env₁ store files ns = seasonsFilesLoop env₂ store files ns := by
  intro ns
  induction ns with
  | nil => intro store; rfl
  | cons n rest ih =>
    intro store
    simp only [seasonsFilesLoop]
    rw [filesLoop_congr env₁ env₂ hlinks henv, ih]

lemma getdataMain_congr (env₁ env₂ : Env) (hlinks : env₁.links = env₂.links)
    (henv : ∀ u, orchFetch env₁ u = orchFetch env₂ u ∨
      (falsyOutcome (orchFetch env₁ u) ∧ falsyOutcome (orchFetch env₂ u)))
    (store : Store) : getdataMain env₁ store = getdataMain env₂ store := by
  simp only [getdataMain]
  rw [seasonsLoop_congr env₁ env₂ hlinks henv,
    seasonsFilesLoop_congr env₁ env₂ hlinks henv]

/-- C2: re-running the crawl orchestrator issues zero network fetches for
resources already present in the artifact store (every logged store-backed
fetch is for a key absent from the initial store), an error-free run's store is
a fixed point of the orchestrator (re-running leaves the store identical), and
in the scenario of a season index listing three schedule pages of which two are
already stored, exactly one schedule-page fetch is issued. -/
theorem crawlIdempotent :
    (∀ (env : Env) (s₀ : Store) (q : String × FetchKind),
        q ∈ (getdataMain env s₀).log → q.2 ≠ FetchKind.seasonIdx →
        lookupKey (dirOf q.2, lastSeg q.1) s₀ = none) ∧
    (∀ (env : Env) (s₀ : Store), (getdataMain env s₀).err = none →
        (getdataMain env (getdataMain env s₀).store).store = (getdataMain env s₀).store) ∧
    ((getdataMain envScn storeScn).log.filter
        (fun q => q.2 = FetchKind.schedPage)).length = 1 := by
  refine ⟨getdataMain_log, getdataMain_rerun, ?_⟩
  decide

theorem crawlIdempotentWitness :
    lookupKey (dirOf FetchKind.schedPage, lastSeg (baseSite ++ "/p3.html")) storeScn = none ∧
      (getdataMain envScn (getdataMain envScn storeScn).store).store =
        (getdataMain envScn storeScn).store :=
  ⟨crawlIdempotent.1 envScn storeScn (baseSite ++ "/p3.html", FetchKind.schedPage)
      (by decide) (by decide),
    crawlIdempotent.2.1 envScn storeScn (by decide)⟩

/-- C9: a fetch that completes without exception but yields an empty fragment
is treated exactly like a failed (retry-exhausted) fetch: two environments
whose fetch outcomes differ only between `success ""` and `success None` drive
the whole crawl to identical results; a falsy season-index fetch abandons the
branch with the store untouched; and a falsy page fetch writes nothing and the
loop just moves on. -/
theorem emptyFragmentEqualsFailedFetch :
    (∀ env₁ env₂ : Env, env₁.links = env₂.links →
      (∀ u, orchFetch env₁ u = orchFetch env₂ u ∨
        (falsyOutcome (orchFetch env₁ u) ∧ falsyOutcome (orchFetch env₂ u))) →
      ∀ s₀ : Store, getdataMain env₁ s₀ = getdataMain env₂ s₀) ∧
    (∀ (env : Env) (s : Store) (n : Nat), falsyOutcome (orchFetch env (seasonUrl n)) →
      scrape_season_data env s n = ⟨s, [(seasonUrl n, FetchKind.seasonIdx)], none⟩) ∧
    (∀ (env : Env) (dir : String) (kind : FetchKind) (s : Store) (u : String)
        (rest : List String),
      lookupKey (dir, lastSeg u) s = none → falsyOutcome (orchFetch env u) →
      resourceLoop env dir kind s (u :: rest) =
        ⟨(resourceLoop env dir kind s rest).store,
          (u, kind) :: (resourceLoop env dir kind s rest).log,
          (resourceLoop env dir kind s rest).err⟩) := by
  refine ⟨fun env₁ env₂ hlinks henv s₀ => getdataMain_congr env₁ env₂ hlinks henv s₀,
    ?_, ?_⟩
  · intro env s n hfo
    cases hfetch : orchFetch env (seasonUrl n) with
    | raised e => rw [hfetch] at hfo; rcases hfo with h | h <;> simp at h
    | success h =>
      have hpy := falsyOutcome_pyFalsy (hfetch ▸ hfo) h rfl
      simp only [scrape_season_data, hfetch, hpy, if_true]
  · intro env dir kind s u rest hl hfo
    cases hfetch : orchFetch env u with
    | raised e => rw [hfetch] at hfo; rcases hfo with h | h <;> simp at h
    | success h =>
      have hpy := falsyOutcome_pyFalsy (hfetch ▸ hfo) h rfl
      simp only [resourceLoop, hl, hfetch, hpy, if_true]

theorem emptyFragmentEqualsFailedFetchWitness :
    getdataMain envEmptyOk [] = getdataMain envTimeout [] ∧
      scrape_season_data envEmptyOk [] 2016 =
        ⟨[], [(seasonUrl 2016, FetchKind.seasonIdx)], none⟩ :=
  ⟨emptyFragmentEqualsFailedFetch.1 envEmptyOk envTimeout rfl
      (fun u => by
        by_cases hu : u = seasonUrl 2016
        · right
          constructor
          · right; rw [hu]; rfl
          · left; rw [hu]; rfl
        · left
          have hnet : envEmptyOk.net u = envTimeout.net u := by
            funext a
            simp [envEmptyOk, envTimeout, hu]
          simp only [orchFetch, hnet]) [],
    emptyFragmentEqualsFailedFetch.2.1 envEmptyOk [] 2016 (Or.inr rfl)⟩

/-! ## Extractor claim theorems -/

/-- C1 (code bug): schema pinning is broken across documents.  A single
document extracts fine, but in the batch loop `main` re-assigns
`base_columns = game_data.columns` — the full game frame's pandas column Index,
not the summary schema — and the second document's `process_box_score` then
evaluates `not base_columns` on that Index, raising `ValueError`, so no second
summary is ever projected onto the first document's canonical key set. -/
theorem schemaPinningSecondDocCrash :
    isOkE (parsedataMain [sampleDoc]) = true ∧
      parsedataMain [sampleDoc, sampleDoc] = .error PdErr.valueErrorTruth := by
  constructor <;> rfl

/-- C8: in every team summary the `<stat>_max` entries are the per-stat maxima
over the individual player rows only — the trailing aggregate (team totals) row
is excluded — while the un-suffixed entries are exactly the aggregate row's
values. -/
theorem maxExcludesAggregateRow (bT aT : TeamTable) (pb pa : List (List Val))
    (aggB aggA : List Val) (hb : bT.rows = pb ++ [aggB]) (ha : aT.rows = pa ++ [aggA]) :
    teamSummary bT aT =
      lowerFst (bT.stats.zip aggB) ++ lowerFst (aT.stats.zip aggA) ++
        (maxFst (specPlayerMaxes bT.stats pb) ++ maxFst (specPlayerMaxes aT.stats pa)) := by
  unfold teamSummary tableTotals tableMaxes colVals specPlayerMaxes
  rw [hb, ha, List.dropLast_concat, List.dropLast_concat, List.getLastD_concat,
    List.getLastD_concat]
  simp [lowerFst, maxFst, List.map_append, List.append_assoc]

theorem maxExcludesAggregateRowWitness :
    teamSummary sampleBasic sampleAdvanced =
      lowerFst (sampleBasic.stats.zip [some 240, some 40]) ++
        lowerFst (sampleAdvanced.stats.zip [some 240, some 0]) ++
        (maxFst (specPlayerMaxes sampleBasic.stats
            [[some 30, some 10], [some 28, some 8]]) ++
          maxFst (specPlayerMaxes sampleAdvanced.stats
            [[some 30, some 5], [some 28, some 3]])) :=
  maxExcludesAggregateRow sampleBasic sampleAdvanced
    [[some 30, some 10], [some 28, some 8]] [[some 30, some 5], [some 28, some 3]]
    [some 240, some 40] [some 240, some 0] rfl rfl

/-! ## Row lookup lemmas for the assembled game frame -/

lemma append_opp_inj (a b : String) (h : a ++ "_opp" = b ++ "_opp") : a = b := by
  have hd := congrArg String.data h
  rw [String.data_append, String.data_append] at hd
  have hc := List.append_cancel_right hd
  cases a; cases b; exact congrArg String.mk hc

lemma opp_ne_won (l : String) : l ++ "_opp" ≠ "won" := by
  intro h
  have hlen := congrArg String.length h
  rw [String.length_append] at hlen
  have h4 : ("_opp" : String).length = 4 := rfl
  have h3 : ("won" : String).length = 3 := rfl
  rw [h4, h3] at hlen
  omega

lemma lookupKey_cells_none (p0 : List (String × Val)) (k : String)
    (hp : k ∉ p0.map Prod.fst) :
    lookupKey k (p0.map (fun q => (q.1, Cell.num q.2))) = none := by
  apply lookupKey_none_of_notmem
  intro q hq hcon
  obtain ⟨q0, hq0, rfl⟩ := List.mem_map.mp hq
  exact hp (List.mem_map.mpr ⟨q0, hq0, hcon⟩)

lemma lookupKey_oppSuffix_none (g : Row) (k : String) (hk : ∀ l, l ++ "_opp" ≠ k) :
    lookupKey k (oppSuffix g) = none := by
  apply lookupKey_none_of_notmem
  intro q hq hcon
  obtain ⟨q0, hq0, rfl⟩ := List.mem_map.mp hq
  exact hk q0.1 hcon

lemma lookupKey_ownRow (p0 : List (String × Val)) (tm : String) (tot : Int) (h : Nat)
    (k : String) (hp : k ∉ p0.map Prod.fst) :
    lookupKey k (ownRow p0 tm tot h) =
      lookupKey k [("team", Cell.str tm), ("total", Cell.intv tot),
        ("home", Cell.intv (Int.ofNat h))] := by
  unfold ownRow
  rw [lookupKey_append_none _ _ _ (lookupKey_cells_none p0 k hp)]

lemma fullRow_total (p0 p1 : List (String × Val)) (tA tB : String) (sA sB : Int)
    (h0 h1 : Nat) (tail : Row) (hA : "total" ∉ p0.map Prod.fst) :
    rowGetInt ((ownRow p0 tA sA h0 ++ oppSuffix (ownRow p1 tB sB h1)) ++ tail)
      "total" = some sA := by
  have hown : lookupKey "total" (ownRow p0 tA sA h0) = some (Cell.intv sA) := by
    rw [lookupKey_ownRow _ _ _ _ _ hA]; rfl
  unfold rowGetInt
  rw [lookupKey_append_some _ _ _ _ (lookupKey_append_some _ _ _ _ hown)]

lemma fullRow_total_opp (p0 p1 : List (String × Val)) (tA tB : String) (sA sB : Int)
    (h0 h1 : Nat) (tail : Row) (hB : "total_opp" ∉ p0.map Prod.fst)
    (hD : "total" ∉ p1.map Prod.fst) :
    rowGetInt ((ownRow p0 tA sA h0 ++ oppSuffix (ownRow p1 tB sB h1)) ++ tail)
      "total_opp" = some sB := by
  have hown : lookupKey "total_opp" (ownRow p0 tA sA h0) = none := by
    rw [lookupKey_ownRow _ _ _ _ _ hB]; rfl
  have hopp : lookupKey "total_opp" (oppSuffix (ownRow p1 tB sB h1)) =
      some (Cell.intv sB) := by
    unfold ownRow oppSuffix
    rw [List.map_append, lookupKey_append_none]
    · rfl
    · apply lookupKey_none_of_notmem
      intro q hq hcon
      obtain ⟨q1, hq1, rfl⟩ := List.mem_map.mp hq
      obtain ⟨q0, hq0, rfl⟩ := List.mem_map.mp hq1
      have : q0.1 ++ "_opp" = "total" ++ "_opp" := hcon.trans rfl
      exact hD (List.mem_map.mpr ⟨q0, hq0, append_opp_inj _ _ this⟩)
  unfold rowGetInt
  rw [lookupKey_append_some _ _ _ _
    (by rw [lookupKey_append_none _ _ _ hown]; exact hopp)]

lemma fullRow_won (bs : BoxScore) (p0 p1 : List (String × Val)) (tA tB : String)
    (sA sB : Int) (h0 h1 : Nat) (t o : Int) (hC : "won" ∉ p0.map Prod.fst) :
    rowGetBool ((ownRow p0 tA sA h0 ++ oppSuffix (ownRow p1 tB sB h1)) ++
        derivedTail bs t o) "won" = some (decide (t > o)) := by
  have hown : lookupKey "won" (ownRow p0 tA sA h0) = none := by
    rw [lookupKey_ownRow _ _ _ _ _ hC]; rfl
  have hopp : lookupKey "won" (oppSuffix (ownRow p1 tB sB h1)) = none :=
    lookupKey_oppSuffix_none _ _ opp_ne_won
  unfold rowGetBool
  rw [lookupKey_append_none _ _ _ (by rw [lookupKey_append_none _ _ _ hown]; exact hopp)]
  rfl

lemma buildGameRows_two (p0 p1 : List (String × Val)) (tA tB : String) (sA sB : Int) :
    buildGameRows [p0, p1] [(tA, sA), (tB, sB)] =
      [ownRow p0 tA sA 0, ownRow p1 tB sB 1] := rfl

lemma assemble_two (bs : BoxScore) (g0 g1 : Row) :
    assemble bs [g0, g1] =
      [(g0 ++ oppSuffix g1) ++
          derivedTail bs ((rowGetInt (g0 ++ oppSuffix g1) "total").getD 0)
            ((rowGetInt (g0 ++ oppSuffix g1) "total_opp").getD 0),
        (g1 ++ oppSuffix g0) ++
          derivedTail bs ((rowGetInt (g1 ++ oppSuffix g0) "total").getD 0)
            ((rowGetInt (g1 ++ oppSuffix g0) "total_opp").getD 0)] := rfl

/-! ## Extractor inversion lemmas -/

lemma seriesSelect_labels (s : List (String × Val)) :
    ∀ (ls : List String) (m : List (String × Val)), seriesSelect s ls = .ok m →
      ∀ q ∈ m, q.1 ∈ s.map Prod.fst := by
  intro ls
  induction ls with
  | nil =>
    intro m hm q hq
    rw [seriesSelect] at hm
    cases hm
    simp at hq
  | cons l ls ih =>
    intro m hm q hq
    simp only [seriesSelect] at hm
    by_cases he : (s.filter (fun p => p.1 = l)).isEmpty = true
    · rw [if_pos he] at hm
      exact Except.noConfusion hm
    · rw [if_neg he] at hm
      cases hrec : seriesSelect s ls with
      | error e => rw [hrec] at hm; exact Except.noConfusion hm
      | ok rest =>
        rw [hrec] at hm
        cases hm
        rcases List.mem_append.mp hq with hql | hqr
        · exact List.mem_map.mpr ⟨q, (List.mem_filter.mp hql).1, rfl⟩
        · exact ih rest hrec q hqr

lemma processTeams_two (bs : BoxScore) (tA tB : String) (b : Cols)
    (out : List (List (String × Val)) × Cols)
    (h : processTeams bs [tA, tB] b = .ok out) :
    ∃ p0 p1 b2, out = ([p0, p1], b2) ∧
      (∀ q ∈ p0, q.1 ∈ summLabels bs tA) ∧
      (∀ q ∈ p1, q.1 ∈ summLabels bs tB) := by
  cases hnb : pyNotCols b with
  | error e =>
    simp only [processTeams, hnb] at h
    exact Except.noConfusion h
  | ok isF =>
    cases isF with
    | true =>
      simp only [processTeams, hnb, if_true, colsList] at h
      cases hsel : seriesSelect (teamSummary (bs.basic tA) (bs.advanced tA))
          (pinSchema (teamSummary (bs.basic tA) (bs.advanced tA))) with
      | error e => rw [hsel] at h; exact Except.noConfusion h
      | ok p0 =>
        rw [hsel] at h
        simp only [pyNotCols] at h
        cases hemp : (pinSchema (teamSummary (bs.basic tA) (bs.advanced tA))).isEmpty with
        | true =>
          rw [hemp] at h
          simp only [if_true, colsList] at h
          cases hsel2 : seriesSelect (teamSummary (bs.basic tB) (bs.advanced tB))
              (pinSchema (teamSummary (bs.basic tB) (bs.advanced tB))) with
          | error e => rw [hsel2] at h; exact Except.noConfusion h
          | ok p1 =>
            rw [hsel2] at h
            cases h
            exact ⟨p0, p1, _, rfl,
              fun q hq => seriesSelect_labels _ _ _ hsel q hq,
              fun q hq => seriesSelect_labels _ _ _ hsel2 q hq⟩
        | false =>
          rw [hemp] at h
          simp only [if_false, Bool.false_eq_true, colsList] at h
          cases hsel2 : seriesSelect (teamSummary (bs.basic tB) (bs.advanced tB))
              (pinSchema (teamSummary (bs.basic tA) (bs.advanced tA))) with
          | error e => rw [hsel2] at h; exact Except.noConfusion h
          | ok p1 =>
            rw [hsel2] at h
            cases h
            exact ⟨p0, p1, _, rfl,
              fun q hq => seriesSelect_labels _ _ _ hsel q hq,
              fun q hq => seriesSelect_labels _ _ _ hsel2 q hq⟩
    | false =>
      simp only [processTeams, hnb, if_false, Bool.false_eq_true] at h
      cases hsel : seriesSelect (teamSummary (bs.basic tA) (bs.advanced tA))
          (colsList b) with
      | error e => rw [hsel] at h; exact Except.noConfusion h
      | ok p0 =>
        rw [hsel] at h
        cases hsel2 : seriesSelect (teamSummary (bs.basic tB) (bs.advanced tB))
            (colsList b) with
        | error e => rw [hsel2] at h; exact Except.noConfusion h
        | ok p1 =>
          rw [hsel2] at h
          cases h
          exact ⟨p0, p1, _, rfl,
            fun q hq => seriesSelect_labels _ _ _ hsel q hq,
            fun q hq => seriesSelect_labels _ _ _ hsel2 q hq⟩

lemma process_two_shape (bs : BoxScore) (tA tB : String) (sA sB : Int)
    (rows : List Row) (cols : List String)
    (hls : bs.lineScore = [(tA, sA), (tB, sB)])
    (hok : process_box_score bs Cols.noCols = .ok (rows, cols)) :
    ∃ p0 p1,
      (∀ q ∈ p0, q.1 ∈ summLabels bs tA) ∧
      (∀ q ∈ p1, q.1 ∈ summLabels bs tB) ∧
      rows = assemble bs [ownRow p0 tA sA 0, ownRow p1 tB sB 1] := by
  unfold process_box_score at hok
  rw [hls] at hok
  simp only [List.map_cons, List.map_nil] at hok
  cases hpt : processTeams bs [tA, tB] Cols.noCols with
  | error e => rw [hpt] at hok; exact Except.noConfusion hok
  | ok out =>
    obtain ⟨p0, p1, b2, rfl, hs0, hs1⟩ := processTeams_two bs tA tB _ out hpt
    rw [hpt] at hok
    have h2 : (Except.ok (assemble bs (buildGameRows [p0, p1] [(tA, sA), (tB, sB)]),
        ((assemble bs (buildGameRows [p0, p1] [(tA, sA), (tB, sB)])).headD []).map Prod.fst)
        : Except PdErr (List Row × List String)) = .ok (rows, cols) := hok
    injection h2 with h3
    injection h3 with h4 h5
    exact ⟨p0, p1, hs0, hs1, by rw [← h4, buildGameRows_two]⟩

lemma notin_proj {p : List (String × Val)} {labels : List String} {k : String}
    (hs : ∀ q ∈ p, q.1 ∈ labels) (hk : k ∉ labels) : k ∉ p.map Prod.fst := by
  intro hm
  obtain ⟨q, hq, rfl⟩ := List.mem_map.mp hm
  exact hk (hs q hq)

/-- C3: a successfully extracted two-team game yields exactly two records that
are row-reversals of each other's own/opponent halves — each record's
`_opp`-suffixed half is precisely the other record's own half — and in
particular `A.total = B.total_opp` and `A.total_opp = B.total`. -/
theorem gameRecordsMirror (bs : BoxScore) (tA tB : String) (sA sB : Int)
    (rows : List Row) (cols : List String)
    (hls : bs.lineScore = [(tA, sA), (tB, sB)])
    (hok : process_box_score bs Cols.noCols = .ok (rows, cols))
    (hcA : cleanTeam bs tA) (hcB : cleanTeam bs tB) :
    rows.length = 2 ∧
      (∃ p0 p1,
        rows = [(ownRow p0 tA sA 0 ++ oppSuffix (ownRow p1 tB sB 1)) ++
            derivedTail bs sA sB,
          (ownRow p1 tB sB 1 ++ oppSuffix (ownRow p0 tA sA 0)) ++
            derivedTail bs sB sA]) ∧
      rowGetInt (rows.getD 0 []) "total" = some sA ∧
      rowGetInt (rows.getD 0 []) "total_opp" = some sB ∧
      rowGetInt (rows.getD 1 []) "total" = some sB ∧
      rowGetInt (rows.getD 1 []) "total_opp" = some sA := by
  obtain ⟨p0, p1, hs0, hs1, hrows⟩ := process_two_shape bs tA tB sA sB rows cols hls hok
  have hA0 : "total" ∉ p0.map Prod.fst := notin_proj hs0 hcA.1
  have hB0 : "total_opp" ∉ p0.map Prod.fst := notin_proj hs0 hcA.2.1
  have hA1 : "total" ∉ p1.map Prod.fst := notin_proj hs1 hcB.1
  have hB1 : "total_opp" ∉ p1.map Prod.fst := notin_proj hs1 hcB.2.1
  rw [assemble_two] at hrows
  have ht0 := fullRow_total p0 p1 tA tB sA sB 0 1 [] hA0
  have hto0 := fullRow_total_opp p0 p1 tA tB sA sB 0 1 [] hB0 hA1
  have ht1 := fullRow_total p1 p0 tB tA sB sA 1 0 [] hA1
  have hto1 := fullRow_total_opp p1 p0 tB tA sB sA 1 0 [] hB1 hA0
  rw [List.append_nil] at ht0 hto0 ht1 hto1
  rw [ht0, hto0, ht1, hto1] at hrows
  simp only [Option.getD_some] at hrows
  refine ⟨by rw [hrows]; rfl, ⟨p0, p1, hrows⟩, ?_, ?_, ?_, ?_⟩
  · rw [hrows]
    simp only [List.getD_cons_zero]
    exact fullRow_total p0 p1 tA tB sA sB 0 1 _ hA0
  · rw [hrows]
    simp only [List.getD_cons_zero]
    exact fullRow_total_opp p0 p1 tA tB sA sB 0 1 _ hB0 hA1
  · rw [hrows]
    simp only [List.getD_cons_succ, List.getD_cons_zero]
    exact fullRow_total p1 p0 tB tA sB sA 1 0 _ hA1
  · rw [hrows]
    simp only [List.getD_cons_succ, List.getD_cons_zero]
    exact fullRow_total_opp p1 p0 tB tA sB sA 1 0 _ hB1 hA0

theorem gameRecordsMirrorWitness :
    (process_box_score sampleDoc Cols.noCols).map
        (fun x => x.1.map (fun r => (rowGetInt r "total", rowGetInt r "total_opp"))) =
      .ok [(some 110, some 104), (some 104, some 110)] := by
  obtain ⟨pr, hpr⟩ : ∃ pr, process_box_score sampleDoc Cols.noCols = .ok pr := ⟨_, rfl⟩
  obtain ⟨rows, cols⟩ := pr
  obtain ⟨hlen, ⟨p0, p1, hrows⟩, ht0, hto0, ht1, hto1⟩ :=
    gameRecordsMirror sampleDoc "BOS" "LAL" 110 104 rows cols rfl hpr
      (by decide) (by decide)
  rw [hrows] at ht0 hto0 ht1 hto1
  simp only [List.getD_cons_zero, List.getD_cons_succ] at ht0 hto0 ht1 hto1
  rw [hpr, hrows]
  simp only [Except.map, List.map_cons, List.map_nil, ht0, hto0, ht1, hto1]

/-- C4 counterexample: on a box score where both teams score 100, extraction
succeeds, both records carry `total = total_opp = 100`, and both records have
`won = false` — refuting both "total ≠ total_opp holds in both emitted
records" and "exactly one of the two records has won = true". -/
theorem noTieInvariantFails :
    (process_box_score tieDoc Cols.noCols).map
        (fun x => x.1.map (fun r => (rowGetInt r "total", rowGetInt r "total_opp",
          rowGetBool r "won"))) =
      .ok [(some 100, some 100, some false), (some 100, some 100, some false)] := by
  rfl

/-- C4 (amended): in both emitted records the `won` flag equals
`total > total_opp`; when the two final totals differ, `total ≠ total_opp`
holds in both records and exactly one of the two records has `won = true`.
(The code performs no tie check, so the no-tie part of the original claim
holds only on tie-free input; see the counterexample.) -/
theorem wonFlagAmended (bs : BoxScore) (tA tB : String) (sA sB : Int)
    (rows : List Row) (cols : List String)
    (hls : bs.lineScore = [(tA, sA), (tB, sB)])
    (hok : process_box_score bs Cols.noCols = .ok (rows, cols))
    (hcA : cleanTeam bs tA) (hcB : cleanTeam bs tB) (hne : sA ≠ sB) :
    rowGetBool (rows.getD 0 []) "won" = some (decide (sA > sB)) ∧
      rowGetBool (rows.getD 1 []) "won" = some (decide (sB > sA)) ∧
      rowGetInt (rows.getD 0 []) "total" ≠ rowGetInt (rows.getD 0 []) "total_opp" ∧
      rowGetInt (rows.getD 1 []) "total" ≠ rowGetInt (rows.getD 1 []) "total_opp" ∧
      ((rowGetBool (rows.getD 0 []) "won" = some true) ↔
        ¬(rowGetBool (rows.getD 1 []) "won" = some true)) := by
  obtain ⟨p0, p1, hs0, hs1, hrows⟩ := process_two_shape bs tA tB sA sB rows cols hls hok
  have hA0 : "total" ∉ p0.map Prod.fst := notin_proj hs0 hcA.1
  have hB0 : "total_opp" ∉ p0.map Prod.fst := notin_proj hs0 hcA.2.1
  have hW0 : "won" ∉ p0.map Prod.fst := notin_proj hs0 hcA.2.2
  have hA1 : "total" ∉ p1.map Prod.fst := notin_proj hs1 hcB.1
  have hB1 : "total_opp" ∉ p1.map Prod.fst := notin_proj hs1 hcB.2.1
  have hW1 : "won" ∉ p1.map Prod.fst := notin_proj hs1 hcB.2.2
  rw [assemble_two] at hrows
  have ht0 := fullRow_total p0 p1 tA tB sA sB 0 1 [] hA0
  have hto0 := fullRow_total_opp p0 p1 tA tB sA sB 0 1 [] hB0 hA1
  have ht1 := fullRow_total p1 p0 tB tA sB sA 1 0 [] hA1
  have hto1 := fullRow_total_opp p1 p0 tB tA sB sA 1 0 [] hB1 hA0
  rw [List.append_nil] at ht0 hto0 ht1 hto1
  rw [ht0, hto0, ht1, hto1] at hrows
  simp only [Option.getD_some] at hrows
  rw [hrows]
  simp only [List.getD_cons_zero, List.getD_cons_succ]
  refine ⟨fullRow_won bs p0 p1 tA tB sA sB 0 1 sA sB hW0,
    fullRow_won bs p1 p0 tB tA sB sA 1 0 sB sA hW1, ?_, ?_, ?_⟩
  · rw [fullRow_total p0 p1 tA tB sA sB 0 1 _ hA0,
      fullRow_total_opp p0 p1 tA tB sA sB 0 1 _ hB0 hA1]
    intro hcon
    exact hne (Option.some.inj hcon)
  · rw [fullRow_total p1 p0 tB tA sB sA 1 0 _ hA1,
      fullRow_total_opp p1 p0 tB tA sB sA 1 0 _ hB1 hA0]
    intro hcon
    exact hne (Option.some.inj hcon).symm
  · rw [fullRow_won bs p0 p1 tA tB sA sB 0 1 sA sB hW0,
      fullRow_won bs p1 p0 tB tA sB sA 1 0 sB sA hW1]
    constructor
    · intro h1 h2
      rw [Option.some.injEq, decide_eq_true_eq] at h1 h2
      omega
    · intro hnb
      rw [Option.some.injEq, decide_eq_true_eq] at hnb ⊢
      omega

theorem wonFlagAmendedWitness :
    (process_box_score sampleDoc Cols.noCols).map
        (fun x => x.1.map (fun r => rowGetBool r "won")) =
      .ok [some true, some false] := by
  obtain ⟨pr, hpr⟩ : ∃ pr, process_box_score sampleDoc Cols.noCols = .ok pr := ⟨_, rfl⟩
  obtain ⟨rows, cols⟩ := pr
  obtain ⟨hw0, hw1, -, -, -⟩ :=
    wonFlagAmended sampleDoc "BOS" "LAL" 110 104 rows cols rfl hpr
      (by decide) (by decide) (by decide)
  obtain ⟨p0, p1, -, -, hrows⟩ :=
    process_two_shape sampleDoc "BOS" "LAL" 110 104 rows cols rfl hpr
  rw [hrows] at hw0 hw1
  rw [assemble_two] at hrows hw0 hw1
  simp only [List.getD_cons_zero, List.getD_cons_succ] at hw0 hw1
  rw [hpr, hrows]
  simp only [Except.map, List.map_cons, List.map_nil, hw0, hw1]
  rfl

lemma dedupAux_sub : ∀ (seen l : List String) (x : String), x ∈ dedupAux seen l → x ∈ l := by
  intro seen l
  induction l generalizing seen with
  | nil => intro x hx; simp [dedupAux] at hx
  | cons a as ih =>
    intro x hx
    simp only [dedupAux] at hx
    by_cases hm : a ∈ seen
    · rw [if_pos hm] at hx
      exact List.mem_cons_of_mem _ (ih seen x hx)
    · rw [if_neg hm] at hx
      rcases List.mem_cons.mp hx with rfl | hx
      · exact List.mem_cons_self _ _
      · exact List.mem_cons_of_mem _ (ih _ x hx)

lemma pinSchema_sub (summary : List (String × Val)) :
    ∀ l ∈ pinSchema summary, l ∈ summary.map Prod.fst := by
  intro l hl
  unfold pinSchema at hl
  exact dedupAux_sub [] _ l (List.mem_of_mem_filter hl)

lemma seriesSelect_ok_of_sub (s : List (String × Val)) :
    ∀ ls : List String, (∀ l ∈ ls, l ∈ s.map Prod.fst) →
      ∃ m, seriesSelect s ls = .ok m := by
  intro ls
  induction ls with
  | nil => intro _; exact ⟨[], rfl⟩
  | cons l ls ih =>
    intro hsub
    obtain ⟨q, hq, hql⟩ := List.mem_map.mp (hsub l (by simp))
    have hmem : q ∈ s.filter (fun p => p.1 = l) :=
      List.mem_filter.mpr ⟨hq, by simp [hql]⟩
    have hne : ¬((s.filter (fun p => p.1 = l)).isEmpty = true) := by
      intro hcon
      rw [List.isEmpty_iff] at hcon
      exact (List.ne_nil_of_mem hmem) hcon
    obtain ⟨m, hm⟩ := ih (fun x hx => hsub x (List.mem_cons_of_mem _ hx))
    refine ⟨s.filter (fun p => p.1 = l) ++ m, ?_⟩
    simp only [seriesSelect]
    rw [if_neg hne, hm]

lemma processTeams_two_ok (bs : BoxScore) (tA tB : String)
    (hBsub : ∀ l ∈ pinSchema (teamSummary (bs.basic tA) (bs.advanced tA)),
      l ∈ summLabels bs tB) :
    ∃ p0 p1 b2, processTeams bs [tA, tB] Cols.noCols = .ok ([p0, p1], b2) ∧
      (∀ q ∈ p0, q.1 ∈ summLabels bs tA) ∧
      (∀ q ∈ p1, q.1 ∈ summLabels bs tB) := by
  obtain ⟨p0, hp0⟩ := seriesSelect_ok_of_sub (teamSummary (bs.basic tA) (bs.advanced tA)) _
    (pinSchema_sub (teamSummary (bs.basic tA) (bs.advanced tA)))
  cases hemp : (pinSchema (teamSummary (bs.basic tA) (bs.advanced tA))).isEmpty with
  | true =>
    obtain ⟨p1, hp1⟩ := seriesSelect_ok_of_sub (teamSummary (bs.basic tB) (bs.advanced tB)) _
      (pinSchema_sub (teamSummary (bs.basic tB) (bs.advanced tB)))
    refine ⟨p0, p1, Cols.pylist (pinSchema (teamSummary (bs.basic tB) (bs.advanced tB))),
      ?_, fun q hq => seriesSelect_labels _ _ _ hp0 q hq,
      fun q hq => seriesSelect_labels _ _ _ hp1 q hq⟩
    simp only [processTeams, pyNotCols, if_true, colsList, hp0, hemp, hp1]
  | false =>
    obtain ⟨p1, hp1⟩ := seriesSelect_ok_of_sub (teamSummary (bs.basic tB) (bs.advanced tB)) _
      hBsub
    refine ⟨p0, p1, Cols.pylist (pinSchema (teamSummary (bs.basic tA) (bs.advanced tA))),
      ?_, fun q hq => seriesSelect_labels _ _ _ hp0 q hq,
      fun q hq => seriesSelect_labels _ _ _ hp1 q hq⟩
    simp only [processTeams, pyNotCols, if_true, if_false, Bool.false_eq_true, colsList,
      hp0, hemp, hp1]

/-- C10: on an extraction input whose two teams have equal final totals, the
extractor raises no error and emits two records that both have `won = false`
(neither side is marked winner), with `total = total_opp`. -/
theorem tieYieldsBothNotWon (bs : BoxScore) (tA tB : String) (s : Int)
    (hls : bs.lineScore = [(tA, s), (tB, s)])
    (hBsub : ∀ l ∈ pinSchema (teamSummary (bs.basic tA) (bs.advanced tA)),
      l ∈ summLabels bs tB)
    (hcA : cleanTeam bs tA) (hcB : cleanTeam bs tB) :
    ∃ rows cols, process_box_score bs Cols.noCols = .ok (rows, cols) ∧
      rows.map (fun r => rowGetBool r "won") = [some false, some false] ∧
      rowGetInt (rows.getD 0 []) "total" = rowGetInt (rows.getD 0 []) "total_opp" := by
  obtain ⟨p0, p1, b2, hpt, hs0, hs1⟩ := processTeams_two_ok bs tA tB hBsub
  have hok : process_box_score bs Cols.noCols =
      .ok (assemble bs (buildGameRows [p0, p1] [(tA, s), (tB, s)]),
        ((assemble bs (buildGameRows [p0, p1] [(tA, s), (tB, s)])).headD []).map
          Prod.fst) := by
    unfold process_box_score
    rw [hls]
    simp only [List.map_cons, List.map_nil]
    rw [hpt]
    rfl
  have hA0 : "total" ∉ p0.map Prod.fst := notin_proj hs0 hcA.1
  have hB0 : "total_opp" ∉ p0.map Prod.fst := notin_proj hs0 hcA.2.1
  have hW0 : "won" ∉ p0.map Prod.fst := notin_proj hs0 hcA.2.2
  have hA1 : "total" ∉ p1.map Prod.fst := notin_proj hs1 hcB.1
  have hB1 : "total_opp" ∉ p1.map Prod.fst := notin_proj hs1 hcB.2.1
  have hW1 : "won" ∉ p1.map Prod.fst := notin_proj hs1 hcB.2.2
  have ht0 := fullRow_total p0 p1 tA tB s s 0 1 [] hA0
  have hto0 := fullRow_total_opp p0 p1 tA tB s s 0 1 [] hB0 hA1
  have ht1 := fullRow_total p1 p0 tB tA s s 1 0 [] hA1
  have hto1 := fullRow_total_opp p1 p0 tB tA s s 1 0 [] hB1 hA0
  rw [List.append_nil] at ht0 hto0 ht1 hto1
  refine ⟨_, _, hok, ?_, ?_⟩
  · rw [buildGameRows_two, assemble_two, ht0, hto0, ht1, hto1]
    simp only [Option.getD_some, List.map_cons, List.map_nil]
    rw [fullRow_won bs p0 p1 tA tB s s 0 1 s s hW0,
      fullRow_won bs p1 p0 tB tA s s 1 0 s s hW1]
    simp
  · rw [buildGameRows_two, assemble_two, ht0, hto0, ht1, hto1]
    simp only [Option.getD_some, List.getD_cons_zero]
    rw [fullRow_total p0 p1 tA tB s s 0 1 _ hA0,
      fullRow_total_opp p0 p1 tA tB s s 0 1 _ hB0 hA1]

theorem tieYieldsBothNotWonWitness :
    (process_box_score tieDoc Cols.noCols).map
        (fun x => x.1.map (fun r => rowGetBool r "won")) =
      .ok [some false, some false] := by
  obtain ⟨rows, cols, hok, hwon, -⟩ :=
    tieYieldsBothNotWon tieDoc "BOS" "LAL" 100 rfl (by decide) (by decide) (by decide)
  rw [hok]
  simp only [Except.map]
  rw [hwon]
